import Mathlib

/-
Verification of the Keplerian orbit model and the two-orbit extremal-distance
solver of this repository (`Blender_Orbits_SolarSystem.py`, `median.py`).

The Python code is embedded shallowly over the real numbers:
`mathutils.Vector` becomes `Vec3`, the precomputed-trigonometry dictionary
returned by `precompute_trig_values` becomes the `PrecomputedOrbit` record,
floats become `ℝ`, and Python's `%` on floats becomes `wrap` (the
floor-based remainder, which is exactly the semantics of Python's `%` for a
positive modulus).  List indexing into the cached point lists becomes
`List.getD`.  The memoization cache of `get_orbital_points` is a pure
optimization (same inputs recompute the same value), so the embedding is the
recomputing function.
-/

open Real

/-- 3D vector, embedding `mathutils.Vector((x, y, z))` / `np.array([x,y,z])`. -/
structure Vec3 where
  x : ℝ
  y : ℝ
  z : ℝ

/-- Componentwise difference, embedding `p1 - p2` on vectors. -/
def vsub (p q : Vec3) : Vec3 := ⟨p.x - q.x, p.y - q.y, p.z - q.z⟩

/-- Sum of squared components of a vector. -/
def normSq (v : Vec3) : ℝ := v.x ^ 2 + v.y ^ 2 + v.z ^ 2

/-- Euclidean norm, embedding `Vector.length`. -/
noncomputable def norm3 (v : Vec3) : ℝ := Real.sqrt (normSq v)

/-- Euclidean distance between two points, embedding `(p1 - p2).length`. -/
noncomputable def dist3 (p q : Vec3) : ℝ := norm3 (vsub p q)

/-- The record returned by `precompute_trig_values`
(`Blender_Orbits_SolarSystem.py`, lines 49-64): the semi-major axis, the
eccentricity, and the cosine/sine of inclination, node and perihelion. -/
structure PrecomputedOrbit where
  a : ℝ
  e : ℝ
  cos_inc : ℝ
  sin_inc : ℝ
  cos_node : ℝ
  sin_node : ℝ
  cos_peri : ℝ
  sin_peri : ℝ

/-- `math.radians`: degrees to radians. -/
noncomputable def toRadians (d : ℝ) : ℝ := d * π / 180

/-- The precomputed record built from orbital elements whose angles are
already in radians (the common core of `precompute_trig_values` after its
`math.radians` conversions). -/
noncomputable def mkPrecomputed (a e i node peri : ℝ) : PrecomputedOrbit :=
  { a := a
    e := e
    cos_inc := Real.cos i
    sin_inc := Real.sin i
    cos_node := Real.cos node
    sin_node := Real.sin node
    cos_peri := Real.cos peri
    sin_peri := Real.sin peri }

/-- `precompute_trig_values(data)` (`Blender_Orbits_SolarSystem.py`,
lines 49-64): the angle fields of the planet dictionaries are in degrees and
are converted by `math.radians` before taking cosines and sines. -/
noncomputable def precompute_trig_values (a e inc node peri : ℝ) : PrecomputedOrbit :=
  mkPrecomputed a e (toRadians inc) (toRadians node) (toRadians peri)

/-- The denominator `1 + e * math.cos(true_anomaly)` of the polar conic
equation (`Blender_Orbits_SolarSystem.py` line 76, `median.py` line 21). -/
noncomputable def orbitDenom (e ν : ℝ) : ℝ := 1 + e * Real.cos ν

/-- `calculate_point_on_orbit(data, true_anomaly)`
(`Blender_Orbits_SolarSystem.py`, lines 69-95), a literal transcription:
polar radius, in-plane point, then the perihelion, inclination and node
rotation lines.  The inclination lines in the source use that the in-plane
point has `z = 0`, so only the `y` contribution appears. -/
noncomputable def calculate_point_on_orbit (data : PrecomputedOrbit) (ν : ℝ) : Vec3 :=
  let a := data.a
  let e := data.e
  let r := a * (1 - e ^ 2) / orbitDenom e ν
  let x := r * Real.cos ν
  let y := r * Real.sin ν
  let x_peri := x * data.cos_peri - y * data.sin_peri
  let y_peri := x * data.sin_peri + y * data.cos_peri
  let y_inc := y_peri * data.cos_inc
  let z_inc := y_peri * data.sin_inc
  let x_final := x_peri * data.cos_node - y_inc * data.sin_node
  let y_final := x_peri * data.sin_node + y_inc * data.cos_node
  ⟨x_final, y_final, z_inc⟩

/-- The rotation block of `calculate_point_on_orbit` (lines 84-93) as a
function of the in-plane coordinates, used to factor norm computations. -/
def applyFrame (data : PrecomputedOrbit) (x y : ℝ) : Vec3 :=
  let x_peri := x * data.cos_peri - y * data.sin_peri
  let y_peri := x * data.sin_peri + y * data.cos_peri
  let y_inc := y_peri * data.cos_inc
  let z_inc := y_peri * data.sin_inc
  let x_final := x_peri * data.cos_node - y_inc * data.sin_node
  let y_final := x_peri * data.sin_node + y_inc * data.cos_node
  ⟨x_final, y_final, z_inc⟩

theorem calculate_point_eq_applyFrame (data : PrecomputedOrbit) (ν : ℝ) :
    calculate_point_on_orbit data ν =
      applyFrame data
        (data.a * (1 - data.e ^ 2) / orbitDenom data.e ν * Real.cos ν)
        (data.a * (1 - data.e ^ 2) / orbitDenom data.e ν * Real.sin ν) := rfl

/-- 3×3 matrix, embedding the `np.array` literals of `median.py`. -/
structure Mat3 where
  m00 : ℝ
  m01 : ℝ
  m02 : ℝ
  m10 : ℝ
  m11 : ℝ
  m12 : ℝ
  m20 : ℝ
  m21 : ℝ
  m22 : ℝ

/-- Matrix-vector product, embedding `R @ pos` of `median.py`. -/
def matVec (m : Mat3) (v : Vec3) : Vec3 :=
  ⟨m.m00 * v.x + m.m01 * v.y + m.m02 * v.z,
   m.m10 * v.x + m.m11 * v.y + m.m12 * v.z,
   m.m20 * v.x + m.m21 * v.y + m.m22 * v.z⟩

/-- `calculate_orbit_point(a, e, i, Ω, ω, true_anomaly)` (`median.py`,
lines 4-46), a literal transcription of the rotation-matrix formulation;
all angles are taken in radians there. -/
noncomputable def calculate_orbit_point (a e i Ω ω ν : ℝ) : Vec3 :=
  let r := a * (1 - e ^ 2) / orbitDenom e ν
  let x := r * Real.cos ν
  let y := r * Real.sin ν
  let R_ω : Mat3 :=
    ⟨Real.cos ω, -Real.sin ω, 0,
     Real.sin ω, Real.cos ω, 0,
     0, 0, 1⟩
  let R_i : Mat3 :=
    ⟨1, 0, 0,
     0, Real.cos i, -Real.sin i,
     0, Real.sin i, Real.cos i⟩
  let R_Ω : Mat3 :=
    ⟨Real.cos Ω, -Real.sin Ω, 0,
     Real.sin Ω, Real.cos Ω, 0,
     0, 0, 1⟩
  let pos : Vec3 := ⟨x, y, 0⟩
  matVec R_Ω (matVec R_i (matVec R_ω pos))

/-- Rotation about the z-axis as the spec states it (standard 2D rotation of
`(x, y)`, `z` unchanged). -/
noncomputable def specRotZ (ang : ℝ) (v : Vec3) : Vec3 :=
  ⟨v.x * Real.cos ang - v.y * Real.sin ang,
   v.x * Real.sin ang + v.y * Real.cos ang,
   v.z⟩

/-- Rotation by inclination about the x-axis as the spec states it:
`y' = y·cos(i) − z·sin(i)`, `z' = y·sin(i) + z·cos(i)`, `x` unchanged. -/
noncomputable def specRotX (ang : ℝ) (v : Vec3) : Vec3 :=
  ⟨v.x,
   v.y * Real.cos ang - v.z * Real.sin ang,
   v.y * Real.sin ang + v.z * Real.cos ang⟩

/-- Follows the spec text (§4.1 / claim C1): radius from the polar conic
equation, in-plane point `(r·cos ν, r·sin ν, 0)`, then exactly three
rotations in the order ω about z, i about x, Ω about z. -/
noncomputable def specOrbitPipeline (a e i Ω ω ν : ℝ) : Vec3 :=
  let r := a * (1 - e ^ 2) / (1 + e * Real.cos ν)
  specRotZ Ω (specRotX i (specRotZ ω ⟨r * Real.cos ν, r * Real.sin ν, 0⟩))

/-- C1: for every precomputed orbit (a, e, i, Ω, ω) and every true anomaly ν
(in particular for all 0 ≤ e < 1), the position returned by the orbit model
`calculate_point_on_orbit` equals the result of computing the polar radius,
taking the in-plane point, and applying exactly the three rotations ω about
z, then i about x (on the y,z pair), then Ω about z, in that order. -/
theorem c1_orbit_model_matches_spec_rotations (a e i Ω ω ν : ℝ) :
    calculate_point_on_orbit (mkPrecomputed a e i Ω ω) ν =
      specOrbitPipeline a e i Ω ω ν := by
  simp only [calculate_point_on_orbit, specOrbitPipeline, specRotZ, specRotX,
    mkPrecomputed, orbitDenom, Vec3.mk.injEq]
  refine ⟨?_, ?_, ?_⟩ <;> ring

/-- C4: the two independently written implementations of the orbital position
formula compute the same function.  `calculate_orbit_point` (`median.py`)
takes its angles in radians while `precompute_trig_values`
(`Blender_Orbits_SolarSystem.py`) receives degrees and converts them with
`math.radians`; feeding both the same element set through that unit boundary,
they return the same 3D position for every true anomaly. -/
theorem c4_scalar_matrix_equivalence (a e i Ω ω ν : ℝ) :
    calculate_orbit_point a e (toRadians i) (toRadians Ω) (toRadians ω) ν =
      calculate_point_on_orbit (precompute_trig_values a e i Ω ω) ν := by
  simp only [calculate_orbit_point, calculate_point_on_orbit, matVec,
    precompute_trig_values, mkPrecomputed, orbitDenom, Vec3.mk.injEq]
  refine ⟨?_, ?_, ?_⟩ <;> ring

theorem orbitDenom_pos (e ν : ℝ) (he0 : 0 ≤ e) (he1 : e < 1) :
    0 < orbitDenom e ν := by
  have h1 := Real.neg_one_le_cos ν
  have h2 := Real.cos_le_one ν
  unfold orbitDenom
  nlinarith

/-- C6: for 0 ≤ e < 1 the denominator `1 + e·cos ν` of the radius computation
is strictly positive for every real ν, so the division in the orbit model
never divides by zero. -/
theorem c6_denominator_positive (e ν : ℝ) (he0 : 0 ≤ e) (he1 : e < 1) :
    0 < orbitDenom e ν :=
  orbitDenom_pos e ν he0 he1

/-- Witness for C6 at the concrete eccentricity 1/2 and true anomaly 0. -/
theorem c6_denominator_positive_witness :
    (0 : ℝ) ≤ 1 / 2 ∧ (1 / 2 : ℝ) < 1 ∧ 0 < orbitDenom (1 / 2) 0 :=
  ⟨by norm_num, by norm_num, c6_denominator_positive (1 / 2) 0 (by norm_num) (by norm_num)⟩

theorem applyFrame_vsub (data : PrecomputedOrbit) (x1 y1 x2 y2 : ℝ) :
    vsub (applyFrame data x1 y1) (applyFrame data x2 y2) =
      applyFrame data (x1 - x2) (y1 - y2) := by
  simp only [applyFrame, vsub, Vec3.mk.injEq]
  refine ⟨?_, ?_, ?_⟩ <;> ring

theorem normSq_applyFrame (data : PrecomputedOrbit)
    (hi : data.cos_inc ^ 2 + data.sin_inc ^ 2 = 1)
    (hn : data.cos_node ^ 2 + data.sin_node ^ 2 = 1)
    (hp : data.cos_peri ^ 2 + data.sin_peri ^ 2 = 1)
    (wx wy : ℝ) :
    normSq (applyFrame data wx wy) = wx ^ 2 + wy ^ 2 := by
  simp only [applyFrame, normSq]
  linear_combination
    ((wx * data.cos_peri - wy * data.sin_peri) ^ 2 +
        (wx * data.sin_peri + wy * data.cos_peri) ^ 2 * data.cos_inc ^ 2) * hn +
      (wx * data.sin_peri + wy * data.cos_peri) ^ 2 * hi +
      (wx ^ 2 + wy ^ 2) * hp

theorem normSq_applyFrame_mk (a e i node peri : ℝ) (wx wy : ℝ) :
    normSq (applyFrame (mkPrecomputed a e i node peri) wx wy) = wx ^ 2 + wy ^ 2 :=
  normSq_applyFrame _ (Real.cos_sq_add_sin_sq i) (Real.cos_sq_add_sin_sq node)
    (Real.cos_sq_add_sin_sq peri) wx wy

/-- C10: for every orbit (a, e, i, Ω, ω) with 0 ≤ e < 1 (the semi-major axis
being a nonnegative length) and every true anomaly ν, the Euclidean norm of
the position returned by the orbit model equals the conic radius
`a·(1−e²)/(1+e·cos ν)`: the three rotation stages preserve the norm of the
in-plane point. -/
theorem c10_norm_equals_radius (a e i Ω ω ν : ℝ)
    (ha : 0 ≤ a) (he0 : 0 ≤ e) (he1 : e < 1) :
    norm3 (calculate_point_on_orbit (mkPrecomputed a e i Ω ω) ν) =
      a * (1 - e ^ 2) / (1 + e * Real.cos ν) := by
  have hd : 0 < orbitDenom e ν := orbitDenom_pos e ν he0 he1
  have hr : 0 ≤ a * (1 - e ^ 2) / orbitDenom e ν :=
    div_nonneg (mul_nonneg ha (by nlinarith)) hd.le
  rw [calculate_point_eq_applyFrame]
  unfold norm3
  rw [show (mkPrecomputed a e i Ω ω).a = a from rfl,
    show (mkPrecomputed a e i Ω ω).e = e from rfl, normSq_applyFrame_mk]
  have hsc := Real.sin_sq_add_cos_sq ν
  have h2 : (a * (1 - e ^ 2) / orbitDenom e ν * Real.cos ν) ^ 2 +
      (a * (1 - e ^ 2) / orbitDenom e ν * Real.sin ν) ^ 2 =
      (a * (1 - e ^ 2) / orbitDenom e ν) ^ 2 := by
    linear_combination (a * (1 - e ^ 2) / orbitDenom e ν) ^ 2 * hsc
  rw [h2, Real.sqrt_sq hr]
  rfl

/-- Witness for C10 at the unit circular orbit evaluated at ν = 0. -/
theorem c10_norm_equals_radius_witness :
    (0 : ℝ) ≤ 1 ∧ (0 : ℝ) ≤ 0 ∧ (0 : ℝ) < 1 ∧
      norm3 (calculate_point_on_orbit (mkPrecomputed 1 0 0 0 0) 0) =
        1 * (1 - 0 ^ 2) / (1 + 0 * Real.cos 0) :=
  ⟨by norm_num, by norm_num, by norm_num,
    c10_norm_equals_radius 1 0 0 0 0 0 (by norm_num) (by norm_num) (by norm_num)⟩

/-- `np.linspace(0, 2*np.pi, n)[k]`: the k-th of n equally spaced values from
0 to 2π, both endpoints included (`k · 2π/(n−1)`). -/
noncomputable def linspace (n k : ℕ) : ℝ := 2 * π * k / ((n : ℝ) - 1)

/-- `get_orbital_points(planet_name, num_points)`
(`Blender_Orbits_SolarSystem.py`, lines 97-109) without its memoization cache
(a pure optimization): the positions at the `num_points` linspace angles. -/
noncomputable def get_orbital_points (data : PrecomputedOrbit) (num_points : ℕ) : List Vec3 :=
  (List.range num_points).map (fun k => calculate_point_on_orbit data (linspace num_points k))

theorem get_orbital_points_getD (data : PrecomputedOrbit) (n k : ℕ) (hk : k < n) :
    (get_orbital_points data n).getD k ⟨0, 0, 0⟩ =
      calculate_point_on_orbit data (linspace n k) := by
  unfold get_orbital_points
  rw [List.getD_eq_getElem?_getD, List.getElem?_map, List.getElem?_range hk]
  rfl

theorem linspace_zero (n : ℕ) : linspace n 0 = 0 := by
  simp [linspace]

theorem calculate_point_two_pi (data : PrecomputedOrbit) :
    calculate_point_on_orbit data (2 * π) = calculate_point_on_orbit data 0 := by
  simp [calculate_point_on_orbit, orbitDenom, Real.cos_two_pi, Real.sin_two_pi]

/-- C7: for every orbit and every n ≥ 2 the sampler returns exactly n
positions, the k-th being the orbit-model position at true anomaly
`2π·k/(n−1)` (n equally spaced values from 0 to 2π, endpoints included), so
the first and the last position coincide.  The coarse search of
`find_min_max_distance_points` converts indices back to angles through the
same `linspace` mapping. -/
theorem c7_sampler_equispaced (data : PrecomputedOrbit) (n : ℕ) (hn : 2 ≤ n) :
    (get_orbital_points data n).length = n ∧
      (∀ k, k < n → (get_orbital_points data n).getD k ⟨0, 0, 0⟩ =
        calculate_point_on_orbit data (2 * π * k / ((n : ℝ) - 1))) ∧
      (get_orbital_points data n).getD 0 ⟨0, 0, 0⟩ =
        (get_orbital_points data n).getD (n - 1) ⟨0, 0, 0⟩ := by
  have hlen : (get_orbital_points data n).length = n := by
    simp [get_orbital_points]
  refine ⟨hlen, ?_, ?_⟩
  · intro k hk
    rw [get_orbital_points_getD data n k hk]
    rfl
  · rw [get_orbital_points_getD data n 0 (by omega),
      get_orbital_points_getD data n (n - 1) (by omega)]
    have hne : (n : ℝ) - 1 ≠ 0 := by
      have : (2 : ℝ) ≤ (n : ℝ) := by exact_mod_cast hn
      linarith
    have hlast : linspace n (n - 1) = 2 * π := by
      unfold linspace
      have hcast : ((n - 1 : ℕ) : ℝ) = (n : ℝ) - 1 := by
        have : 1 ≤ n := by omega
        push_cast [this]
        ring
      rw [hcast]
      field_simp
    rw [linspace_zero, hlast, calculate_point_two_pi]

/-- Witness for C7 at n = 2 on the unit circular orbit. -/
theorem c7_sampler_equispaced_witness :
    2 ≤ 2 ∧
      ((get_orbital_points (mkPrecomputed 1 0 0 0 0) 2).length = 2 ∧
        (∀ k, k < 2 → (get_orbital_points (mkPrecomputed 1 0 0 0 0) 2).getD k ⟨0, 0, 0⟩ =
          calculate_point_on_orbit (mkPrecomputed 1 0 0 0 0) (2 * π * k / ((2 : ℝ) - 1))) ∧
        (get_orbital_points (mkPrecomputed 1 0 0 0 0) 2).getD 0 ⟨0, 0, 0⟩ =
          (get_orbital_points (mkPrecomputed 1 0 0 0 0) 2).getD (2 - 1) ⟨0, 0, 0⟩) :=
  ⟨by norm_num, c7_sampler_equispaced (mkPrecomputed 1 0 0 0 0) 2 (by norm_num)⟩

/-- Counterexample to C5: no invalid input is rejected.  The sampler called
with the degenerate resolution n = 1 < 2 returns a one-point list instead of
signalling invalid input, and the orbit model called with the hyperbolic
eccentricity e = 2 ∉ [0,1) computes and returns a position (here (−3, 0, 0))
instead of rejecting before any computation. -/
theorem c5_no_rejection_counterexample :
    (get_orbital_points (mkPrecomputed 1 0 0 0 0) 1).length = 1 ∧
      calculate_point_on_orbit (mkPrecomputed 1 2 0 0 0) π = ⟨-3, 0, 0⟩ := by
  constructor
  · simp [get_orbital_points]
  · simp only [calculate_point_on_orbit, mkPrecomputed, orbitDenom,
      Real.cos_pi, Real.sin_pi, Real.cos_zero, Real.sin_zero, Vec3.mk.injEq]
    norm_num

/-- C5 amended: the code performs no input validation at all.  The sampler is
total and returns a list of exactly n positions for every n, including the
degenerate n = 0 and n = 1 (for n = 1 the single sample sits at angle 0,
matching `np.linspace(0, 2π, 1)`); the orbit model likewise computes a
position for every eccentricity.  No invalid-input signal exists anywhere. -/
theorem c5_amended_no_validation :
    (∀ (data : PrecomputedOrbit) (n : ℕ), (get_orbital_points data n).length = n) ∧
      (∀ data : PrecomputedOrbit, get_orbital_points data 0 = []) ∧
      (∀ data : PrecomputedOrbit,
        get_orbital_points data 1 = [calculate_point_on_orbit data 0]) := by
  refine ⟨fun data n => by simp [get_orbital_points], fun data => by simp [get_orbital_points],
    fun data => ?_⟩
  simp [get_orbital_points, linspace]

/-- Python's `x % (2*math.pi)` on floats: the floor-based remainder
(`refine_extremum`, lines 259-260). -/
noncomputable def wrap (x : ℝ) : ℝ := x - 2 * π * ⌊x / (2 * π)⌋

theorem wrap_eq_sub_int (x : ℝ) : ∃ k : ℤ, wrap x = x - 2 * π * k :=
  ⟨⌊x / (2 * π)⌋, rfl⟩

theorem cos_wrap (x : ℝ) : Real.cos (wrap x) = Real.cos x := by
  have h : wrap x = x + (-⌊x / (2 * π)⌋ : ℤ) * (2 * π) := by
    unfold wrap
    push_cast
    ring
  rw [h, Real.cos_add_int_mul_two_pi]

theorem cos_wrap_sub_wrap (u v : ℝ) : Real.cos (wrap u - wrap v) = Real.cos (u - v) := by
  have h : wrap u - wrap v =
      (u - v) + ((⌊v / (2 * π)⌋ - ⌊u / (2 * π)⌋ : ℤ) : ℝ) * (2 * π) := by
    unfold wrap
    push_cast
    ring
  rw [h, Real.cos_add_int_mul_two_pi]

theorem wrap_eq_self (x : ℝ) (h0 : 0 ≤ x) (h1 : x < 2 * π) : wrap x = x := by
  have hpi : (0 : ℝ) < 2 * π := by positivity
  have hfl : ⌊x / (2 * π)⌋ = 0 := by
    rw [Int.floor_eq_zero_iff]
    constructor
    · exact div_nonneg h0 hpi.le
    · rw [div_lt_one hpi]
      exact h1
  unfold wrap
  rw [hfl]
  push_cast
  ring

theorem wrap_neg_small (x : ℝ) (h0 : -(2 * π) ≤ x) (h1 : x < 0) : wrap x = x + 2 * π := by
  have hpi : (0 : ℝ) < 2 * π := by positivity
  have hfl : ⌊x / (2 * π)⌋ = -1 := by
    rw [Int.floor_eq_iff]
    constructor
    · push_cast
      rw [le_div_iff hpi]
      linarith
    · push_cast
      rw [div_lt_iff hpi]
      linarith
  unfold wrap
  rw [hfl]
  push_cast
  ring

/-- The 8 neighbor offsets of the nested `for dt1 ... for dt2 ...` loops of
`refine_extremum` (lines 254-257), with the `(0, 0)` pair skipped, in the
source's iteration order. -/
def offsets (s : ℝ) : List (ℝ × ℝ) :=
  [(-s, -s), (-s, 0), (-s, s), (0, -s), (0, s), (s, -s), (s, 0), (s, s)]

/-- The running-best fold implemented by the candidate loop of
`refine_extremum` (lines 254-270): starting from `(best_distance,
best_thetas)`, each candidate replaces the running best exactly when the
comparison `bt` accepts its objective value against the running best. -/
noncomputable def pickBest {α : Type} (f : α → ℝ) (bt : ℝ → ℝ → Prop)
    [∀ x y : ℝ, Decidable (bt x y)] (l : List α) (acc : ℝ × α) : ℝ × α :=
  l.foldl (fun acc c => if bt (f c) acc.1 then (f c, c) else acc) acc

theorem pickBest_nil {α : Type} (f : α → ℝ) (bt : ℝ → ℝ → Prop)
    [∀ x y : ℝ, Decidable (bt x y)] (acc : ℝ × α) :
    pickBest f bt [] acc = acc := rfl

theorem pickBest_cons {α : Type} (f : α → ℝ) (bt : ℝ → ℝ → Prop)
    [∀ x y : ℝ, Decidable (bt x y)] (c : α) (l : List α) (acc : ℝ × α) :
    pickBest f bt (c :: l) acc =
      pickBest f bt l (if bt (f c) acc.1 then (f c, c) else acc) := rfl

theorem pickBest_append {α : Type} (f : α → ℝ) (bt : ℝ → ℝ → Prop)
    [∀ x y : ℝ, Decidable (bt x y)] (l1 l2 : List α) (acc : ℝ × α) :
    pickBest f bt (l1 ++ l2) acc = pickBest f bt l2 (pickBest f bt l1 acc) := by
  unfold pickBest
  rw [List.foldl_append]

theorem pickBest_keep {α : Type} (f : α → ℝ) (bt : ℝ → ℝ → Prop)
    [∀ x y : ℝ, Decidable (bt x y)] (l : List α) (acc : ℝ × α)
    (h : ∀ c ∈ l, ¬ bt (f c) acc.1) : pickBest f bt l acc = acc := by
  induction l with
  | nil => rfl
  | cons c cs ih =>
    rw [pickBest_cons, if_neg (h c (List.mem_cons_self c cs))]
    exact ih fun d hd => h d (List.mem_cons_of_mem c hd)

theorem pickBest_mem {α : Type} (f : α → ℝ) (bt : ℝ → ℝ → Prop)
    [∀ x y : ℝ, Decidable (bt x y)] (l : List α) (acc : ℝ × α) :
    pickBest f bt l acc = acc ∨ ∃ c ∈ l, pickBest f bt l acc = (f c, c) := by
  induction l generalizing acc with
  | nil => exact Or.inl rfl
  | cons c cs ih =>
    rw [pickBest_cons]
    by_cases hc : bt (f c) acc.1
    · rw [if_pos hc]
      rcases ih (f c, c) with h | ⟨d, hd, h⟩
      · exact Or.inr ⟨c, List.mem_cons_self c cs, h⟩
      · exact Or.inr ⟨d, List.mem_cons_of_mem c hd, h⟩
    · rw [if_neg hc]
      rcases ih acc with h | ⟨d, hd, h⟩
      · exact Or.inl h
      · exact Or.inr ⟨d, List.mem_cons_of_mem c hd, h⟩

theorem pickBest_firstWin {α : Type} (f : α → ℝ) (bt : ℝ → ℝ → Prop)
    [∀ x y : ℝ, Decidable (bt x y)] (l1 l2 : List α) (x : α) (acc : ℝ × α)
    (hx : bt (f x) acc.1) (h1 : ∀ y ∈ l1, bt (f x) (f y))
    (h2 : ∀ y ∈ l2, ¬ bt (f y) (f x)) :
    pickBest f bt (l1 ++ x :: l2) acc = (f x, x) := by
  rw [pickBest_append]
  have hacc1 : bt (f x) (pickBest f bt l1 acc).1 := by
    rcases pickBest_mem f bt l1 acc with h | ⟨y, hy, h⟩
    · rw [h]; exact hx
    · rw [h]; exact h1 y hy
  rw [pickBest_cons, if_pos hacc1]
  exact pickBest_keep f bt l2 (f x, x) h2

/-- Loop state of `refine_extremum`: the current angle pair, the current step
size, and whether the `break` after step halving has fired. -/
structure RState where
  t1 : ℝ
  t2 : ℝ
  s : ℝ
  stop : Bool

/-- The inter-body distance at an angle pair: `(p1 - p2).length` for the two
orbit-model positions (`refine_extremum`, lines 245-247). -/
noncomputable def distAt (o1 o2 : PrecomputedOrbit) (t1 t2 : ℝ) : ℝ :=
  dist3 (calculate_point_on_orbit o1 t1) (calculate_point_on_orbit o2 t2)

/-- One iteration of the `for _ in range(steps)` loop of `refine_extremum`
(`Blender_Orbits_SolarSystem.py`, lines 243-281), a literal transcription:
the running best starts at `current_distance` for the minimum search and at
`-current_distance` for the maximum search; the 8 wrapped neighbors are
folded through the strict comparison (`<` for the minimum search, `>` for
the maximum search); if the resulting best angle pair differs from the
current one the point moves keeping the step size, otherwise the step size
is halved and the loop stops once it falls below 1e-6. -/
noncomputable def refineStep (o1 o2 : PrecomputedOrbit) (is_minimum : Bool)
    (st : RState) : RState :=
  if st.stop then st else
  let current_distance := distAt o1 o2 st.t1 st.t2
  let cands := (offsets st.s).map fun p => (wrap (st.t1 + p.1), wrap (st.t2 + p.2))
  let f := fun q : ℝ × ℝ => distAt o1 o2 q.1 q.2
  let best :=
    if is_minimum then pickBest f (· < ·) cands (current_distance, (st.t1, st.t2))
    else pickBest f (· > ·) cands (-current_distance, (st.t1, st.t2))
  if best.2 ≠ (st.t1, st.t2) then ⟨best.2.1, best.2.2, st.s, false⟩
  else ⟨st.t1, st.t2, st.s / 2, decide (st.s / 2 < 1e-6)⟩

/-- The bounded iteration of `refine_extremum`'s loop. -/
noncomputable def refineLoop (o1 o2 : PrecomputedOrbit) (is_minimum : Bool) :
    ℕ → RState → RState
  | 0, st => st
  | n + 1, st => refineLoop o1 o2 is_minimum n (refineStep o1 o2 is_minimum st)

/-- `refine_extremum(planet1, planet2, theta1, theta2, is_minimum, steps,
step_size)` (lines 235-283); the source's callers use the default arguments
`steps = 5`, `step_size = 0.001`. -/
noncomputable def refine_extremum (o1 o2 : PrecomputedOrbit) (theta1 theta2 : ℝ)
    (is_minimum : Bool) (steps : ℕ) (step_size : ℝ) : ℝ × ℝ :=
  let fin := refineLoop o1 o2 is_minimum steps ⟨theta1, theta2, step_size, false⟩
  (fin.t1, fin.t2)

theorem refineStep_cases (o1 o2 : PrecomputedOrbit) (is_minimum : Bool) (st : RState) :
    refineStep o1 o2 is_minimum st = st ∨
      (refineStep o1 o2 is_minimum st).t1 = st.t1 ∧
        (refineStep o1 o2 is_minimum st).t2 = st.t2 ∧
        (refineStep o1 o2 is_minimum st).s = st.s / 2 ∨
      ∃ p ∈ offsets st.s,
        (refineStep o1 o2 is_minimum st).t1 = wrap (st.t1 + p.1) ∧
        (refineStep o1 o2 is_minimum st).t2 = wrap (st.t2 + p.2) ∧
        (refineStep o1 o2 is_minimum st).s = st.s := by
  unfold refineStep
  by_cases hstop : st.stop
  · rw [if_pos hstop]
    exact Or.inl rfl
  rw [if_neg hstop]
  set cands := (offsets st.s).map fun p => (wrap (st.t1 + p.1), wrap (st.t2 + p.2)) with hcands
  set f := fun q : ℝ × ℝ => distAt o1 o2 q.1 q.2 with hf
  set cur := distAt o1 o2 st.t1 st.t2 with hcur
  set best :=
    if is_minimum then pickBest f (· < ·) cands (cur, (st.t1, st.t2))
    else pickBest f (· > ·) cands (-cur, (st.t1, st.t2)) with hbest
  by_cases hmv : best.2 ≠ (st.t1, st.t2)
  · rw [if_pos hmv]
    have hmem : best = (cur, (st.t1, st.t2)) ∨ best = (-cur, (st.t1, st.t2)) ∨
        ∃ c ∈ cands, best = (f c, c) := by
      rw [hbest]
      by_cases him : is_minimum
      · rw [if_pos him]
        rcases pickBest_mem f (· < ·) cands (cur, (st.t1, st.t2)) with h | ⟨c, hc, h⟩
        · exact Or.inl h
        · exact Or.inr (Or.inr ⟨c, hc, h⟩)
      · rw [if_neg him]
        rcases pickBest_mem f (· > ·) cands (-cur, (st.t1, st.t2)) with h | ⟨c, hc, h⟩
        · exact Or.inr (Or.inl h)
        · exact Or.inr (Or.inr ⟨c, hc, h⟩)
    rcases hmem with h | h | ⟨c, hc, h⟩
    · exact absurd (by rw [h]) hmv
    · exact absurd (by rw [h]) hmv
    · rcases List.mem_map.mp hc with ⟨p, hp, hpc⟩
      refine Or.inr (Or.inr ⟨p, hp, ?_, ?_, rfl⟩)
      · rw [← hbest, h, ← hpc]
      · rw [← hbest, h, ← hpc]
  · rw [if_neg hmv]
    exact Or.inr (Or.inl ⟨rfl, rfl, rfl⟩)

theorem offsets_bound (s : ℝ) (hs : 0 ≤ s) :
    ∀ p ∈ offsets s, |p.1| ≤ s ∧ |p.2| ≤ s := by
  intro p hp
  have habs : |s| = s := abs_of_nonneg hs
  have hneg : |(-s)| = s := by rw [abs_neg]; exact habs
  simp only [offsets, List.mem_cons, List.not_mem_nil, or_false] at hp
  rcases hp with h | h | h | h | h | h | h | h <;>
    (subst h; constructor <;> simp [habs, hneg, hs])

theorem refineLoop_locality (o1 o2 : PrecomputedOrbit) (is_minimum : Bool) :
    ∀ (n : ℕ) (st : RState), 0 ≤ st.s →
      ∃ k1 k2 : ℤ,
        |(refineLoop o1 o2 is_minimum n st).t1 - st.t1 - 2 * π * k1| ≤ n * st.s ∧
        |(refineLoop o1 o2 is_minimum n st).t2 - st.t2 - 2 * π * k2| ≤ n * st.s := by
  intro n
  induction n with
  | zero =>
    intro st hs
    refine ⟨0, 0, ?_, ?_⟩ <;> simp [refineLoop]
  | succ n ih =>
    intro st hs
    have hloop : refineLoop o1 o2 is_minimum (n + 1) st =
        refineLoop o1 o2 is_minimum n (refineStep o1 o2 is_minimum st) := rfl
    rcases refineStep_cases o1 o2 is_minimum st with hid | ⟨ht1, ht2, hsz⟩ | ⟨p, hp, ht1, ht2, hsz⟩
    · rcases ih st hs with ⟨k1, k2, h1, h2⟩
      refine ⟨k1, k2, ?_, ?_⟩ <;>
        · rw [hloop, hid]
          push_cast
          nlinarith [abs_nonneg ((refineLoop o1 o2 is_minimum n st).t1 - st.t1 - 2 * π * k1),
            abs_nonneg ((refineLoop o1 o2 is_minimum n st).t2 - st.t2 - 2 * π * k2), h1, h2]
    · set st' := refineStep o1 o2 is_minimum st with hst'
      have hs' : 0 ≤ st'.s := by rw [hsz]; linarith
      rcases ih st' hs' with ⟨k1, k2, h1, h2⟩
      rw [ht1] at h1
      rw [ht2] at h2
      have hb : (n : ℝ) * st'.s ≤ ((n : ℝ) + 1) * st.s := by
        rw [hsz]
        nlinarith [Nat.cast_nonneg (α := ℝ) n]
      rw [hloop]
      refine ⟨k1, k2, ?_, ?_⟩
      · push_cast
        linarith [h1, hb]
      · push_cast
        linarith [h2, hb]
    · set st' := refineStep o1 o2 is_minimum st with hst'
      have hs' : 0 ≤ st'.s := by rw [hsz]; exact hs
      rcases ih st' hs' with ⟨k1, k2, h1, h2⟩
      obtain ⟨K1, hK1⟩ := wrap_eq_sub_int (st.t1 + p.1)
      obtain ⟨K2, hK2⟩ := wrap_eq_sub_int (st.t2 + p.2)
      obtain ⟨hp1, hp2⟩ := offsets_bound st.s hs p hp
      rw [hloop]
      refine ⟨k1 - K1, k2 - K2, ?_, ?_⟩
      · push_cast
        have hsplit : (refineLoop o1 o2 is_minimum n st').t1 - st.t1 - 2 * π * ((k1 : ℝ) - (K1 : ℝ)) =
            ((refineLoop o1 o2 is_minimum n st').t1 - st'.t1 - 2 * π * k1) + p.1 := by
          rw [ht1, hK1]
          ring
        rw [hsplit]
        calc |((refineLoop o1 o2 is_minimum n st').t1 - st'.t1 - 2 * π * k1) + p.1| ≤
              |(refineLoop o1 o2 is_minimum n st').t1 - st'.t1 - 2 * π * k1| + |p.1| := abs_add _ _
          _ ≤ (n : ℝ) * st'.s + st.s := add_le_add h1 hp1
          _ = ((n : ℝ) + 1) * st.s := by rw [hsz]; ring
      · push_cast
        have hsplit : (refineLoop o1 o2 is_minimum n st').t2 - st.t2 - 2 * π * ((k2 : ℝ) - (K2 : ℝ)) =
            ((refineLoop o1 o2 is_minimum n st').t2 - st'.t2 - 2 * π * k2) + p.2 := by
          rw [ht2, hK2]
          ring
        rw [hsplit]
        calc |((refineLoop o1 o2 is_minimum n st').t2 - st'.t2 - 2 * π * k2) + p.2| ≤
              |(refineLoop o1 o2 is_minimum n st').t2 - st'.t2 - 2 * π * k2| + |p.2| := abs_add _ _
          _ ≤ (n : ℝ) * st'.s + st.s := add_le_add h2 hp2
          _ = ((n : ℝ) + 1) * st.s := by rw [hsz]; ring

/-- C9: refinement is local.  For every pair of orbits and every seed angle
pair, each angle returned by `refine_extremum` (with the source's default
budget of 5 iterations and initial step 0.001 rad) lies within
5 × 0.001 = 0.005 rad of the corresponding seed angle measured on the circle
(modulo 2π): every iteration moves each angle by at most the current step
size, which starts at 0.001 and never increases. -/
theorem c9_refinement_locality (o1 o2 : PrecomputedOrbit) (θ1 θ2 : ℝ) (is_minimum : Bool) :
    ∃ k1 k2 : ℤ,
      |(refine_extremum o1 o2 θ1 θ2 is_minimum 5 0.001).1 - θ1 - 2 * π * k1| ≤ 0.005 ∧
      |(refine_extremum o1 o2 θ1 θ2 is_minimum 5 0.001).2 - θ2 - 2 * π * k2| ≤ 0.005 := by
  obtain ⟨k1, k2, h1, h2⟩ :=
    refineLoop_locality o1 o2 is_minimum 5 ⟨θ1, θ2, 0.001, false⟩ (by norm_num)
  refine ⟨k1, k2, ?_, ?_⟩
  · refine le_trans ?_ (le_of_eq (by norm_num : ((5 : ℕ) : ℝ) * 0.001 = 0.005))
    exact h1
  · refine le_trans ?_ (le_of_eq (by norm_num : ((5 : ℕ) : ℝ) * 0.001 = 0.005))
    exact h2

/-- Concrete circular orbit in the xy-plane (a = 1, e = 0, i = Ω = ω = 0). -/
noncomputable def orbitXY : PrecomputedOrbit := mkPrecomputed 1 0 0 0 0

/-- Concrete circular orbit in the xz-plane (a = 1, e = 0, i = π/2,
Ω = ω = 0). -/
noncomputable def orbitXZ : PrecomputedOrbit := mkPrecomputed 1 0 (π / 2) 0 0

/-- Seed state at the exact maximum-separation configuration of the two
perpendicular unit circles, with the source's initial step size 0.001. -/
noncomputable def seedState : RState := ⟨0, π, 0.001, false⟩

theorem point_orbitXY (t : ℝ) :
    calculate_point_on_orbit orbitXY t = ⟨Real.cos t, Real.sin t, 0⟩ := by
  unfold orbitXY calculate_point_on_orbit mkPrecomputed orbitDenom
  simp [Real.cos_zero, Real.sin_zero]

theorem point_orbitXZ (t : ℝ) :
    calculate_point_on_orbit orbitXZ t = ⟨Real.cos t, 0, Real.sin t⟩ := by
  unfold orbitXZ calculate_point_on_orbit mkPrecomputed orbitDenom
  simp [Real.cos_zero, Real.sin_zero, Real.cos_pi_div_two, Real.sin_pi_div_two]

theorem distAt_perp (t1 t2 : ℝ) :
    distAt orbitXY orbitXZ t1 t2 = Real.sqrt (2 - 2 * Real.cos t1 * Real.cos t2) := by
  rw [distAt, point_orbitXY, point_orbitXZ]
  unfold dist3 norm3 vsub normSq
  congr 1
  have h1 := Real.sin_sq_add_cos_sq t1
  have h2 := Real.sin_sq_add_cos_sq t2
  simp only
  linear_combination h1 + h2

theorem refineStep_eval_max (o1 o2 : PrecomputedOrbit) (st : RState)
    (hstop : st.stop = false) (won : ℝ × ℝ) (l1 l2 : List (ℝ × ℝ))
    (hsplit : (offsets st.s).map (fun p => (wrap (st.t1 + p.1), wrap (st.t2 + p.2))) =
      l1 ++ won :: l2)
    (hx : distAt o1 o2 won.1 won.2 > -(distAt o1 o2 st.t1 st.t2))
    (h1 : ∀ y ∈ l1, distAt o1 o2 won.1 won.2 > distAt o1 o2 y.1 y.2)
    (h2 : ∀ y ∈ l2, ¬ distAt o1 o2 y.1 y.2 > distAt o1 o2 won.1 won.2)
    (hne : won ≠ (st.t1, st.t2)) :
    refineStep o1 o2 false st = ⟨won.1, won.2, st.s, false⟩ := by
  unfold refineStep
  rw [hstop]
  simp only [Bool.false_eq_true, if_false, Bool.if_false_left, Bool.not_false]
  rw [hsplit, pickBest_firstWin (fun q : ℝ × ℝ => distAt o1 o2 q.1 q.2) (· > ·) l1 l2 won
    (-(distAt o1 o2 st.t1 st.t2), (st.t1, st.t2)) hx h1 h2]
  rw [if_pos hne]

theorem refineStep_eval_halve (o1 o2 : PrecomputedOrbit) (st : RState)
    (hstop : st.stop = false)
    (hkeep : ∀ p ∈ offsets st.s,
      ¬ distAt o1 o2 (wrap (st.t1 + p.1)) (wrap (st.t2 + p.2)) <
        distAt o1 o2 st.t1 st.t2) :
    refineStep o1 o2 true st = ⟨st.t1, st.t2, st.s / 2, decide (st.s / 2 < 1e-6)⟩ := by
  unfold refineStep
  rw [hstop]
  simp only [Bool.false_eq_true, if_false, if_true, Bool.if_false_left, Bool.not_false]
  rw [pickBest_keep (fun q : ℝ × ℝ => distAt o1 o2 q.1 q.2) (· < ·) _ _ ?_]
  · rw [if_neg (by simp)]
  · intro c hc
    rcases List.mem_map.mp hc with ⟨p, hp, hpc⟩
    rw [← hpc]
    exact hkeep p hp

theorem cos_milli_pos : 0 < Real.cos 0.001 := by
  apply Real.cos_pos_of_mem_Ioo
  constructor
  · nlinarith [Real.pi_gt_three]
  · nlinarith [Real.pi_gt_three]

theorem cos_milli_lt_one : Real.cos 0.001 < 1 := by
  have h := Real.cos_lt_cos_of_nonneg_of_le_pi (le_refl 0) (by nlinarith [Real.pi_gt_three])
    (by norm_num : (0 : ℝ) < 0.001)
  rwa [Real.cos_zero] at h

theorem wrap_seed_neg : wrap ((0 : ℝ) + -0.001) = 2 * π - 0.001 := by
  rw [show (0 : ℝ) + -0.001 = -0.001 by norm_num,
    wrap_neg_small (-0.001) (by nlinarith [Real.pi_gt_three]) (by norm_num)]
  ring

theorem wrap_seed_zero : wrap ((0 : ℝ) + 0) = 0 := by
  rw [show (0 : ℝ) + 0 = 0 by norm_num]
  exact wrap_eq_self 0 (le_refl 0) (by nlinarith [Real.pi_gt_three])

theorem wrap_seed_pos : wrap ((0 : ℝ) + 0.001) = 0.001 := by
  rw [show (0 : ℝ) + 0.001 = 0.001 by norm_num]
  exact wrap_eq_self 0.001 (by norm_num) (by nlinarith [Real.pi_gt_three])

theorem wrap_pi_neg : wrap (π + -0.001) = π - 0.001 := by
  rw [show π + -0.001 = π - 0.001 by ring]
  exact wrap_eq_self _ (by nlinarith [Real.pi_gt_three]) (by nlinarith [Real.pi_gt_three])

theorem wrap_pi_zero : wrap (π + 0) = π := by
  rw [show π + 0 = π by ring]
  exact wrap_eq_self _ (by nlinarith [Real.pi_gt_three]) (by nlinarith [Real.pi_gt_three])

theorem wrap_pi_pos : wrap (π + 0.001) = π + 0.001 := by
  exact wrap_eq_self _ (by nlinarith [Real.pi_gt_three]) (by nlinarith [Real.pi_gt_three])

theorem dist_seed : distAt orbitXY orbitXZ 0 π = 2 := by
  rw [distAt_perp, show (2 : ℝ) - 2 * Real.cos 0 * Real.cos π = 2 ^ 2 by
    rw [Real.cos_zero, Real.cos_pi]; norm_num]
  exact Real.sqrt_sq (by norm_num)

theorem refineStep_seed_eval :
    refineStep orbitXY orbitXZ false seedState = ⟨2 * π - 0.001, π, 0.001, false⟩ := by
  have hA0 := cos_milli_pos
  have hA1 := cos_milli_lt_one
  have hsq : Real.cos 0.001 ^ 2 < Real.cos 0.001 := by nlinarith
  have hv1 : distAt orbitXY orbitXZ (2 * π - 0.001) (π - 0.001) =
      Real.sqrt (2 + 2 * Real.cos 0.001 ^ 2) := by
    rw [distAt_perp, Real.cos_two_pi_sub, Real.cos_pi_sub]
    ring_nf
  have hv2 : distAt orbitXY orbitXZ (2 * π - 0.001) π =
      Real.sqrt (2 + 2 * Real.cos 0.001) := by
    rw [distAt_perp, Real.cos_two_pi_sub, Real.cos_pi]
    ring_nf
  have hv3 : distAt orbitXY orbitXZ (2 * π - 0.001) (π + 0.001) =
      Real.sqrt (2 + 2 * Real.cos 0.001 ^ 2) := by
    rw [distAt_perp, Real.cos_two_pi_sub, show π + (0.001 : ℝ) = 0.001 + π by ring,
      Real.cos_add_pi]
    ring_nf
  have hv4 : distAt orbitXY orbitXZ 0 (π - 0.001) =
      Real.sqrt (2 + 2 * Real.cos 0.001) := by
    rw [distAt_perp, Real.cos_zero, Real.cos_pi_sub]
    ring_nf
  have hv5 : distAt orbitXY orbitXZ 0 (π + 0.001) =
      Real.sqrt (2 + 2 * Real.cos 0.001) := by
    rw [distAt_perp, Real.cos_zero, show π + (0.001 : ℝ) = 0.001 + π by ring,
      Real.cos_add_pi]
    ring_nf
  have hv6 : distAt orbitXY orbitXZ 0.001 (π - 0.001) =
      Real.sqrt (2 + 2 * Real.cos 0.001 ^ 2) := by
    rw [distAt_perp, Real.cos_pi_sub]
    ring_nf
  have hv7 : distAt orbitXY orbitXZ 0.001 π =
      Real.sqrt (2 + 2 * Real.cos 0.001) := by
    rw [distAt_perp, Real.cos_pi]
    ring_nf
  have hv8 : distAt orbitXY orbitXZ 0.001 (π + 0.001) =
      Real.sqrt (2 + 2 * Real.cos 0.001 ^ 2) := by
    rw [distAt_perp, show π + (0.001 : ℝ) = 0.001 + π by ring, Real.cos_add_pi]
    ring_nf
  have hvlt : Real.sqrt (2 + 2 * Real.cos 0.001 ^ 2) <
      Real.sqrt (2 + 2 * Real.cos 0.001) := by
    apply Real.sqrt_lt_sqrt (by positivity)
    nlinarith
  have hsplit : (offsets seedState.s).map
      (fun p => (wrap (seedState.t1 + p.1), wrap (seedState.t2 + p.2))) =
      [(2 * π - 0.001, π - 0.001)] ++ (2 * π - 0.001, π) ::
        [(2 * π - 0.001, π + 0.001), ((0 : ℝ), π - 0.001), ((0 : ℝ), π + 0.001),
         ((0.001 : ℝ), π - 0.001), ((0.001 : ℝ), π), ((0.001 : ℝ), π + 0.001)] := by
    show (offsets (0.001 : ℝ)).map (fun p => (wrap ((0 : ℝ) + p.1), wrap (π + p.2))) = _
    simp only [offsets, List.map_cons, List.map_nil, wrap_seed_neg, wrap_seed_zero,
      wrap_seed_pos, wrap_pi_neg, wrap_pi_zero, wrap_pi_pos, List.cons_append,
      List.nil_append]
  have hne : ((2 * π - 0.001, π) : ℝ × ℝ) ≠ (seedState.t1, seedState.t2) := by
    show ((2 * π - 0.001, π) : ℝ × ℝ) ≠ (0, π)
    intro h
    have h1 : 2 * π - 0.001 = 0 := congrArg Prod.fst h
    nlinarith [Real.pi_gt_three]
  have hres := refineStep_eval_max orbitXY orbitXZ seedState rfl
    (2 * π - 0.001, π) _ _ hsplit
    (by
      show distAt orbitXY orbitXZ (2 * π - 0.001) π > -(distAt orbitXY orbitXZ seedState.t1 seedState.t2)
      show distAt orbitXY orbitXZ (2 * π - 0.001) π > -(distAt orbitXY orbitXZ 0 π)
      rw [hv2, dist_seed]
      have := Real.sqrt_nonneg (2 + 2 * Real.cos 0.001)
      linarith)
    (by
      intro y hy
      simp only [List.mem_cons, List.not_mem_nil, or_false] at hy
      subst hy
      show distAt orbitXY orbitXZ (2 * π - 0.001) π > distAt orbitXY orbitXZ (2 * π - 0.001) (π - 0.001)
      rw [hv1, hv2]
      exact hvlt)
    (by
      intro y hy
      simp only [List.mem_cons, List.not_mem_nil, or_false] at hy
      rcases hy with h | h | h | h | h | h <;> subst h <;>
        simp only [gt_iff_lt, not_lt]
      · rw [hv2, hv3]; exact hvlt.le
      · rw [hv2, hv4]
      · rw [hv2, hv5]
      · rw [hv2, hv6]; exact hvlt.le
      · rw [hv2, hv7]
      · rw [hv2, hv8]; exact hvlt.le)
    hne
  rw [hres]
  show RState.mk (2 * π - 0.001) π seedState.s false = RState.mk (2 * π - 0.001) π 0.001 false
  rfl

theorem dist_after_seed : distAt orbitXY orbitXZ (2 * π - 0.001) π =
    Real.sqrt (2 + 2 * Real.cos 0.001) := by
  rw [distAt_perp, Real.cos_two_pi_sub, Real.cos_pi]
  ring_nf

theorem sqrt_four_eq_two : Real.sqrt 4 = 2 := by
  rw [show (4 : ℝ) = 2 ^ 2 by norm_num]
  exact Real.sqrt_sq (by norm_num)

theorem sqrt_two_add_cos_lt_two : Real.sqrt (2 + 2 * Real.cos 0.001) < 2 := by
  have h4 : Real.sqrt (2 + 2 * Real.cos 0.001) < Real.sqrt 4 :=
    Real.sqrt_lt_sqrt (by nlinarith [cos_milli_pos]) (by nlinarith [cos_milli_lt_one])
  rwa [sqrt_four_eq_two] at h4

/-- C2: in the maximum search the code does not behave as claimed.  At the
seed (θ1, θ2) = (0, π) of the two perpendicular unit circles — the exact
maximum-separation configuration — no neighbor strictly improves the
objective (every neighbor's distance is ≤ the current distance 2), yet
`refine_extremum`'s iteration moves the point instead of halving the step
and keeping it: the running best of the maximum search is initialized to
`-current_distance`, so any neighbor beats it.  (The minimum search and the
termination rule do follow the claim.) -/
theorem c2_max_search_moves_without_improvement :
    (∀ p ∈ offsets (0.001 : ℝ),
        distAt orbitXY orbitXZ (wrap ((0 : ℝ) + p.1)) (wrap (π + p.2)) ≤
          distAt orbitXY orbitXZ 0 π) ∧
      (refineStep orbitXY orbitXZ false seedState).t1 ≠ seedState.t1 ∧
      (refineStep orbitXY orbitXZ false seedState).s = seedState.s := by
  have hA0 := cos_milli_pos
  have hA1 := cos_milli_lt_one
  have hle1 : Real.sqrt (2 + 2 * Real.cos 0.001) ≤ 2 := sqrt_two_add_cos_lt_two.le
  have hle2 : Real.sqrt (2 + 2 * Real.cos 0.001 ^ 2) ≤ 2 := by
    have h4 : Real.sqrt (2 + 2 * Real.cos 0.001 ^ 2) ≤ Real.sqrt 4 :=
      Real.sqrt_le_sqrt (by nlinarith)
    rwa [sqrt_four_eq_two] at h4
  refine ⟨?_, ?_, ?_⟩
  · intro p hp
    rw [dist_seed]
    simp only [offsets, List.mem_cons, List.not_mem_nil, or_false] at hp
    rcases hp with h | h | h | h | h | h | h | h <;> subst h
    · rw [wrap_seed_neg, wrap_pi_neg, distAt_perp, Real.cos_two_pi_sub, Real.cos_pi_sub]
      calc Real.sqrt (2 - 2 * Real.cos 0.001 * -Real.cos 0.001) =
            Real.sqrt (2 + 2 * Real.cos 0.001 ^ 2) := by ring_nf
        _ ≤ 2 := hle2
    · rw [wrap_seed_neg, wrap_pi_zero, distAt_perp, Real.cos_two_pi_sub, Real.cos_pi]
      calc Real.sqrt (2 - 2 * Real.cos 0.001 * (-1)) =
            Real.sqrt (2 + 2 * Real.cos 0.001) := by ring_nf
        _ ≤ 2 := hle1
    · rw [wrap_seed_neg, wrap_pi_pos, distAt_perp, Real.cos_two_pi_sub,
        show π + (0.001 : ℝ) = 0.001 + π by ring, Real.cos_add_pi]
      calc Real.sqrt (2 - 2 * Real.cos 0.001 * -Real.cos 0.001) =
            Real.sqrt (2 + 2 * Real.cos 0.001 ^ 2) := by ring_nf
        _ ≤ 2 := hle2
    · rw [wrap_seed_zero, wrap_pi_neg, distAt_perp, Real.cos_zero, Real.cos_pi_sub]
      calc Real.sqrt (2 - 2 * 1 * -Real.cos 0.001) =
            Real.sqrt (2 + 2 * Real.cos 0.001) := by ring_nf
        _ ≤ 2 := hle1
    · rw [wrap_seed_zero, wrap_pi_pos, distAt_perp, Real.cos_zero,
        show π + (0.001 : ℝ) = 0.001 + π by ring, Real.cos_add_pi]
      calc Real.sqrt (2 - 2 * 1 * -Real.cos 0.001) =
            Real.sqrt (2 + 2 * Real.cos 0.001) := by ring_nf
        _ ≤ 2 := hle1
    · rw [wrap_seed_pos, wrap_pi_neg, distAt_perp, Real.cos_pi_sub]
      calc Real.sqrt (2 - 2 * Real.cos 0.001 * -Real.cos 0.001) =
            Real.sqrt (2 + 2 * Real.cos 0.001 ^ 2) := by ring_nf
        _ ≤ 2 := hle2
    · rw [wrap_seed_pos, wrap_pi_zero, distAt_perp, Real.cos_pi]
      calc Real.sqrt (2 - 2 * Real.cos 0.001 * (-1)) =
            Real.sqrt (2 + 2 * Real.cos 0.001) := by ring_nf
        _ ≤ 2 := hle1
    · rw [wrap_seed_pos, wrap_pi_pos, distAt_perp,
        show π + (0.001 : ℝ) = 0.001 + π by ring, Real.cos_add_pi]
      calc Real.sqrt (2 - 2 * Real.cos 0.001 * -Real.cos 0.001) =
            Real.sqrt (2 + 2 * Real.cos 0.001 ^ 2) := by ring_nf
        _ ≤ 2 := hle2
  · rw [refineStep_seed_eval]
    show 2 * π - 0.001 ≠ seedState.t1
    show 2 * π - 0.001 ≠ (0 : ℝ)
    intro h
    nlinarith [Real.pi_gt_three]
  · rw [refineStep_seed_eval]
    rfl

/-- C3: the maximum-search distance is not non-decreasing across iterations.
At the seed (0, π) of the two perpendicular unit circles the current
distance is the global maximum 2, yet after one iteration of
`refine_extremum`'s loop the distance strictly decreases (to
√(2 + 2·cos 0.001) < 2), because the maximum search's running best starts at
`-current_distance` and therefore accepts a worse neighbor. -/
theorem c3_max_search_distance_decreases :
    distAt orbitXY orbitXZ (refineStep orbitXY orbitXZ false seedState).t1
        (refineStep orbitXY orbitXZ false seedState).t2 <
      distAt orbitXY orbitXZ seedState.t1 seedState.t2 := by
  rw [refineStep_seed_eval]
  show distAt orbitXY orbitXZ (2 * π - 0.001) π < distAt orbitXY orbitXZ 0 π
  rw [dist_after_seed, dist_seed]
  exact sqrt_two_add_cos_lt_two

theorem circ_point_applyFrame (a i node peri t : ℝ) :
    calculate_point_on_orbit (mkPrecomputed a 0 i node peri) t =
      applyFrame (mkPrecomputed a 0 i node peri) (a * Real.cos t) (a * Real.sin t) := by
  rw [calculate_point_eq_applyFrame]
  have h1 : (mkPrecomputed a 0 i node peri).a *
      (1 - (mkPrecomputed a 0 i node peri).e ^ 2) /
        orbitDenom (mkPrecomputed a 0 i node peri).e t = a := by
    show a * (1 - (0 : ℝ) ^ 2) / orbitDenom 0 t = a
    unfold orbitDenom
    norm_num
  rw [h1]

theorem applyFrame_same (a1 a2 e1 e2 i node peri : ℝ) (x y : ℝ) :
    applyFrame (mkPrecomputed a1 e1 i node peri) x y =
      applyFrame (mkPrecomputed a2 e2 i node peri) x y := rfl

/-- Chord distance between two same-orientation circular orbits: it only
depends on the radii and the difference of the two anomalies. -/
theorem dist_circ (a1 a2 i node peri u v : ℝ) :
    dist3 (calculate_point_on_orbit (mkPrecomputed a1 0 i node peri) u)
        (calculate_point_on_orbit (mkPrecomputed a2 0 i node peri) v) =
      Real.sqrt (a1 ^ 2 + a2 ^ 2 - 2 * a1 * a2 * Real.cos (u - v)) := by
  rw [circ_point_applyFrame, circ_point_applyFrame,
    applyFrame_same a2 a1 0 0 i node peri]
  unfold dist3 norm3
  rw [applyFrame_vsub, normSq_applyFrame_mk]
  congr 1
  rw [Real.cos_sub]
  have h1 := Real.sin_sq_add_cos_sq u
  have h2 := Real.sin_sq_add_cos_sq v
  linear_combination a1 ^ 2 * h1 + a2 ^ 2 * h2

theorem distAt_circ (a1 a2 i node peri u v : ℝ) :
    distAt (mkPrecomputed a1 0 i node peri) (mkPrecomputed a2 0 i node peri) u v =
      Real.sqrt (a1 ^ 2 + a2 ^ 2 - 2 * a1 * a2 * Real.cos (u - v)) := by
  unfold distAt
  exact dist_circ a1 a2 i node peri u v

theorem sqrtD_le (a1 a2 : ℝ) (ha1 : 0 < a1) (ha2 : 0 < a2) {x y : ℝ}
    (h : Real.cos y ≤ Real.cos x) :
    Real.sqrt (a1 ^ 2 + a2 ^ 2 - 2 * a1 * a2 * Real.cos x) ≤
      Real.sqrt (a1 ^ 2 + a2 ^ 2 - 2 * a1 * a2 * Real.cos y) :=
  Real.sqrt_le_sqrt (by nlinarith [mul_le_mul_of_nonneg_left h (mul_pos ha1 ha2).le])

theorem sqrtD_lt (a1 a2 : ℝ) (ha1 : 0 < a1) (ha2 : 0 < a2) {x y : ℝ}
    (h : Real.cos y < Real.cos x) :
    Real.sqrt (a1 ^ 2 + a2 ^ 2 - 2 * a1 * a2 * Real.cos x) <
      Real.sqrt (a1 ^ 2 + a2 ^ 2 - 2 * a1 * a2 * Real.cos y) :=
  Real.sqrt_lt_sqrt
    (by nlinarith [sq_nonneg (a1 - a2),
      mul_le_mul_of_nonneg_left (Real.cos_le_one x) (mul_pos ha1 ha2).le])
    (by nlinarith [mul_lt_mul_of_pos_left h (mul_pos ha1 ha2)])

theorem sqrtD_pos (a1 a2 : ℝ) (ha1 : 0 < a1) (ha2 : 0 < a2) (hne : a1 ≠ a2) (x : ℝ) :
    0 < Real.sqrt (a1 ^ 2 + a2 ^ 2 - 2 * a1 * a2 * Real.cos x) := by
  have h0 : a1 - a2 ≠ 0 := sub_ne_zero.mpr hne
  have hsq : 0 < (a1 - a2) ^ 2 := by
    rcases lt_or_gt_of_ne h0 with h | h <;> nlinarith
  exact Real.sqrt_pos.mpr
    (by nlinarith [mul_le_mul_of_nonneg_left (Real.cos_le_one x) (mul_pos ha1 ha2).le])

theorem cos_grid_nat (d : ℕ) (hd : d ≤ 499) :
    Real.cos (2 * π * 249 / 499) ≤ Real.cos (2 * π * d / 499) := by
  have hpi := Real.pi_pos
  rcases le_or_lt d 249 with h | h
  · have hdr : (d : ℝ) ≤ 249 := by exact_mod_cast h
    apply Real.cos_le_cos_of_nonneg_of_le_pi
    · positivity
    · nlinarith
    · nlinarith
  · have h499 : (d : ℝ) ≤ 499 := by exact_mod_cast hd
    have h250 : (250 : ℝ) ≤ (d : ℝ) := by exact_mod_cast h
    have hco : Real.cos (2 * π * d / 499) = Real.cos (2 * π * (499 - (d : ℝ)) / 499) := by
      rw [show 2 * π * (499 - (d : ℝ)) / 499 = 2 * π - 2 * π * d / 499 by ring,
        Real.cos_two_pi_sub]
    rw [hco]
    apply Real.cos_le_cos_of_nonneg_of_le_pi
    · have : (0 : ℝ) ≤ 499 - (d : ℝ) := by linarith
      positivity
    · nlinarith
    · nlinarith

theorem cos_grid (i j : ℕ) (hi : i < 500) (hj : j < 500) :
    Real.cos (2 * π * 249 / 499) ≤ Real.cos (2 * π * i / 499 - 2 * π * j / 499) := by
  rcases le_or_lt j i with h | h
  · have hc : ((i - j : ℕ) : ℝ) = (i : ℝ) - j := by
      push_cast [h]
      ring
    have harg : 2 * π * i / 499 - 2 * π * j / 499 = 2 * π * ((i - j : ℕ) : ℝ) / 499 := by
      rw [hc]
      ring
    rw [harg]
    exact cos_grid_nat (i - j) (by omega)
  · have hc : ((j - i : ℕ) : ℝ) = (j : ℝ) - i := by
      push_cast [h.le]
      ring
    have harg : 2 * π * i / 499 - 2 * π * j / 499 = -(2 * π * ((j - i : ℕ) : ℝ) / 499) := by
      rw [hc]
      ring
    rw [harg, Real.cos_neg]
    exact cos_grid_nat (j - i) (by omega)

theorem cos_row_strict (j : ℕ) (hj : j < 249) :
    Real.cos (2 * π * 249 / 499) < Real.cos (2 * π * j / 499) := by
  have hpi := Real.pi_pos
  have hjr : (j : ℝ) < 249 := by exact_mod_cast hj
  apply Real.cos_lt_cos_of_nonneg_of_le_pi
  · positivity
  · nlinarith
  · nlinarith

/-- `NUM_POINTS = 500` (`Blender_Orbits_SolarSystem.py`, line 43). -/
def NUM_POINTS : ℕ := 500

/-- The (i, j) index pairs of the n × n distance matrix in row-major order:
the order in which `np.argmin`/`np.argmax` scan the flattened matrix. -/
def pairsList (n : ℕ) : List (ℕ × ℕ) :=
  (List.range n).flatMap fun i => (List.range n).map fun j => (i, j)

theorem pairsList_mem (n : ℕ) (p : ℕ × ℕ) (hp : p ∈ pairsList n) :
    p.1 < n ∧ p.2 < n := by
  simp only [pairsList, List.mem_flatMap, List.mem_map, List.mem_range] at hp
  obtain ⟨i, hi, j, hj, hij⟩ := hp
  rw [← hij]
  exact ⟨hi, hj⟩

set_option maxRecDepth 4000 in
theorem pairsList_decomp :
    ∃ L2, pairsList 500 =
      ((List.range 249).map fun j => ((0 : ℕ), j)) ++ ((0 : ℕ), (249 : ℕ)) :: L2 := by
  refine ⟨((List.map (fun x => 249 + x) (List.map Nat.succ (List.range 250))).map
      fun j => ((0 : ℕ), j)) ++
      ((List.range 499).map fun x => 1 + x).flatMap (fun i =>
        (List.range 249 ++
          249 :: List.map (fun x => 249 + x) (List.map Nat.succ (List.range 250))).map
            fun j => (i, j)), ?_⟩
  · show (List.range 500).flatMap (fun i => (List.range 500).map fun j => (i, j)) = _
    set f : ℕ → List (ℕ × ℕ) := fun i => (List.range 500).map fun j => (i, j) with hf
    have hsplit : List.range 500 = [0] ++ (List.range 499).map (fun x => 1 + x) :=
      List.range_add 1 499
    rw [hsplit, List.flatMap_append]
    have hrow0 : [0].flatMap f = f 0 := by simp
    rw [hrow0, hf]
    simp only
    have hr500 : List.range 500 = List.range 249 ++
        (249 :: ((List.range 250).map Nat.succ).map fun x => 249 + x) := by
      have h1 : List.range 500 = List.range 249 ++ (List.range 251).map fun x => 249 + x :=
        List.range_add 249 251
      have h2 : List.range 251 = 0 :: (List.range 250).map Nat.succ :=
        List.range_succ_eq_map 250
      rw [h1, h2]
      simp [List.map_cons]
    rw [hr500, List.map_append, List.map_cons, List.append_assoc, List.cons_append]

theorem coarse_min_keep (g : ℕ × ℕ → ℝ) (d0 : ℝ)
    (hbound : ∀ p ∈ pairsList 500, ¬ g p < d0) :
    (pickBest g (· < ·) (pairsList 500) (d0, ((0 : ℕ), (0 : ℕ)))).2 =
      ((0 : ℕ), (0 : ℕ)) := by
  rw [pickBest_keep g (· < ·) (pairsList 500) (d0, ((0 : ℕ), (0 : ℕ))) hbound]

theorem coarse_max_firstwin (g : ℕ × ℕ → ℝ) (d0 : ℝ)
    (hgt : g (0, 249) > d0)
    (hrow : ∀ j : ℕ, j < 249 → g (0, j) < g (0, 249))
    (hall : ∀ p : ℕ × ℕ, p.1 < 500 → p.2 < 500 → g p ≤ g (0, 249)) :
    (pickBest g (· > ·) (pairsList 500) (d0, ((0 : ℕ), (0 : ℕ)))).2 =
      ((0 : ℕ), (249 : ℕ)) := by
  obtain ⟨L2, hdec⟩ := pairsList_decomp
  have hL2 : ∀ y ∈ L2, y.1 < 500 ∧ y.2 < 500 := by
    intro y hy
    apply pairsList_mem 500
    rw [hdec]
    exact List.mem_append_right _ (List.mem_cons_of_mem _ hy)
  rw [hdec, pickBest_firstWin g (· > ·) _ L2 ((0 : ℕ), (249 : ℕ))
    (d0, ((0 : ℕ), (0 : ℕ))) hgt ?_ ?_]
  · intro y hy
    rcases List.mem_map.mp hy with ⟨j, hj, hjy⟩
    rw [List.mem_range] at hj
    rw [← hjy]
    exact hrow j hj
  · intro y hy
    obtain ⟨h1, h2⟩ := hL2 y hy
    have := hall y h1 h2
    simp only [gt_iff_lt, not_lt]
    exact this

/-- The per-pair fields of the dictionary returned by
`find_min_max_distance_points` (lines 222-233). -/
structure FindResult where
  min_distance : ℝ
  min_point1 : Vec3
  min_point2 : Vec3
  min_theta1 : ℝ
  min_theta2 : ℝ
  max_distance : ℝ
  max_point1 : Vec3
  max_point2 : Vec3
  max_theta1 : ℝ
  max_theta2 : ℝ

/-- `find_min_max_distance_points(planet1, planet2)`
(`Blender_Orbits_SolarSystem.py`, lines 189-233): coarse search over the
500 × 500 distance matrix of the cached sampled points — `np.argmin` /
`np.argmax` scan the flattened matrix in row-major order and keep the first
occurrence of the extremal value, which is exactly the strict-comparison
`pickBest` fold over `pairsList` seeded with entry (0,0) — followed by
`refine_extremum` on the corresponding `linspace` angles with the default
budget (5 iterations, step 0.001), and a final recomputation of points and
distances from the orbit model at the refined angles. -/
noncomputable def find_min_max_distance_points (o1 o2 : PrecomputedOrbit) : FindResult :=
  let orbit1_points := get_orbital_points o1 NUM_POINTS
  let orbit2_points := get_orbital_points o2 NUM_POINTS
  let g := fun p : ℕ × ℕ =>
    dist3 (orbit1_points.getD p.1 ⟨0, 0, 0⟩) (orbit2_points.getD p.2 ⟨0, 0, 0⟩)
  let min_idx := (pickBest g (· < ·) (pairsList NUM_POINTS) (g (0, 0), ((0 : ℕ), (0 : ℕ)))).2
  let max_idx := (pickBest g (· > ·) (pairsList NUM_POINTS) (g (0, 0), ((0 : ℕ), (0 : ℕ)))).2
  let mins := refine_extremum o1 o2 (linspace NUM_POINTS min_idx.1)
    (linspace NUM_POINTS min_idx.2) true 5 0.001
  let maxs := refine_extremum o1 o2 (linspace NUM_POINTS max_idx.1)
    (linspace NUM_POINTS max_idx.2) false 5 0.001
  let min_point1 := calculate_point_on_orbit o1 mins.1
  let min_point2 := calculate_point_on_orbit o2 mins.2
  let max_point1 := calculate_point_on_orbit o1 maxs.1
  let max_point2 := calculate_point_on_orbit o2 maxs.2
  { min_distance := dist3 min_point1 min_point2
    min_point1 := min_point1
    min_point2 := min_point2
    min_theta1 := mins.1
    min_theta2 := mins.2
    max_distance := dist3 max_point1 max_point2
    max_point1 := max_point1
    max_point2 := max_point2
    max_theta1 := maxs.1
    max_theta2 := maxs.2 }

theorem linspace_500 (k : ℕ) : linspace 500 k = 2 * π * k / 499 := by
  unfold linspace
  norm_num

theorem linspace_500_zero : linspace 500 0 = 0 := by
  rw [linspace_500]
  norm_num

theorem distAt_circ_wrap (a1 a2 i node peri u v c1 c2 w : ℝ)
    (hw : (u + c1) - (v + c2) = w) :
    distAt (mkPrecomputed a1 0 i node peri) (mkPrecomputed a2 0 i node peri)
      (wrap (u + c1)) (wrap (v + c2)) =
    Real.sqrt (a1 ^ 2 + a2 ^ 2 - 2 * a1 * a2 * Real.cos w) := by
  rw [distAt_circ, cos_wrap_sub_wrap, hw]

theorem refineStep_maxA (a1 a2 i node peri : ℝ)
    (ha1 : 0 < a1) (ha2 : 0 < a2) (hne : a1 ≠ a2) (u v u' : ℝ)
    (hwu : wrap (u + -0.001) = u')
    (hwv : wrap (v + 0.001) = v + 0.001)
    (hne2 : ((u', v + 0.001) : ℝ × ℝ) ≠ (u, v))
    (h1 : Real.cos (u - v - 0.002) < Real.cos (u - v - 0.001))
    (h2 : Real.cos (u - v - 0.002) < Real.cos (u - v))
    (h3 : Real.cos (u - v - 0.002) ≤ Real.cos (u - v + 0.001))
    (h4 : Real.cos (u - v - 0.002) ≤ Real.cos (u - v + 0.002)) :
    refineStep (mkPrecomputed a1 0 i node peri) (mkPrecomputed a2 0 i node peri) false
      ⟨u, v, 0.001, false⟩ = ⟨u', v + 0.001, 0.001, false⟩ := by
  set o1 := mkPrecomputed a1 0 i node peri with ho1
  set o2 := mkPrecomputed a2 0 i node peri with ho2
  have hvwon := distAt_circ_wrap a1 a2 i node peri u v (-0.001) 0.001 (u - v - 0.002) (by ring)
  have hvc1 := distAt_circ_wrap a1 a2 i node peri u v (-0.001) (-0.001) (u - v) (by ring)
  have hvc2 := distAt_circ_wrap a1 a2 i node peri u v (-0.001) 0 (u - v - 0.001) (by ring)
  have hvc4 := distAt_circ_wrap a1 a2 i node peri u v 0 (-0.001) (u - v + 0.001) (by ring)
  have hvc5 := distAt_circ_wrap a1 a2 i node peri u v 0 0.001 (u - v - 0.001) (by ring)
  have hvc6 := distAt_circ_wrap a1 a2 i node peri u v 0.001 (-0.001) (u - v + 0.002) (by ring)
  have hvc7 := distAt_circ_wrap a1 a2 i node peri u v 0.001 0 (u - v + 0.001) (by ring)
  have hvc8 := distAt_circ_wrap a1 a2 i node peri u v 0.001 0.001 (u - v) (by ring)
  have hcur : distAt o1 o2 u v =
      Real.sqrt (a1 ^ 2 + a2 ^ 2 - 2 * a1 * a2 * Real.cos (u - v)) := by
    rw [ho1, ho2, distAt_circ]
  have hres := refineStep_eval_max o1 o2 ⟨u, v, 0.001, false⟩ rfl
    (wrap (u + -0.001), wrap (v + 0.001))
    [(wrap (u + -0.001), wrap (v + -0.001)), (wrap (u + -0.001), wrap (v + 0))]
    [(wrap (u + 0), wrap (v + -0.001)), (wrap (u + 0), wrap (v + 0.001)),
     (wrap (u + 0.001), wrap (v + -0.001)), (wrap (u + 0.001), wrap (v + 0)),
     (wrap (u + 0.001), wrap (v + 0.001))]
    (by
      simp only [offsets, List.map_cons, List.map_nil, List.cons_append, List.nil_append])
    (by
      show distAt o1 o2 (wrap (u + -0.001)) (wrap (v + 0.001)) > -(distAt o1 o2 u v)
      rw [hvwon, hcur]
      have hp := sqrtD_pos a1 a2 ha1 ha2 hne (u - v)
      have hn := Real.sqrt_nonneg (a1 ^ 2 + a2 ^ 2 - 2 * a1 * a2 * Real.cos (u - v - 0.002))
      linarith)
    (by
      intro y hy
      simp only [List.mem_cons, List.not_mem_nil, or_false] at hy
      rcases hy with h | h <;> subst h <;>
        simp only [gt_iff_lt]
      · rw [hvwon, hvc1]
        exact sqrtD_lt a1 a2 ha1 ha2 h2
      · rw [hvwon, hvc2]
        exact sqrtD_lt a1 a2 ha1 ha2 h1)
    (by
      intro y hy
      simp only [List.mem_cons, List.not_mem_nil, or_false] at hy
      rcases hy with h | h | h | h | h <;> subst h <;>
        simp only [gt_iff_lt, not_lt]
      · rw [hvwon, hvc4]
        exact sqrtD_le a1 a2 ha1 ha2 h3
      · rw [hvwon, hvc5]
        exact sqrtD_le a1 a2 ha1 ha2 h1.le
      · rw [hvwon, hvc6]
        exact sqrtD_le a1 a2 ha1 ha2 h4
      · rw [hvwon, hvc7]
        exact sqrtD_le a1 a2 ha1 ha2 h3
      · rw [hvwon, hvc8]
        exact sqrtD_le a1 a2 ha1 ha2 h2.le)
    (by
      show (wrap (u + -0.001), wrap (v + 0.001)) ≠ ((⟨u, v, 0.001, false⟩ : RState).t1,
        (⟨u, v, 0.001, false⟩ : RState).t2)
      rw [hwu, hwv]
      exact hne2)
  rw [hres, hwu, hwv]

theorem refineStep_maxB (a1 a2 i node peri : ℝ)
    (ha1 : 0 < a1) (ha2 : 0 < a2) (hne : a1 ≠ a2) (u v : ℝ)
    (hwu : wrap (u + -0.001) = u - 0.001)
    (hwv : wrap (v + -0.001) = v - 0.001)
    (hne2 : ((u - 0.001, v - 0.001) : ℝ × ℝ) ≠ (u, v))
    (h1 : Real.cos (u - v) ≤ Real.cos (u - v - 0.001))
    (h2 : Real.cos (u - v) ≤ Real.cos (u - v - 0.002))
    (h3 : Real.cos (u - v) ≤ Real.cos (u - v + 0.001))
    (h4 : Real.cos (u - v) ≤ Real.cos (u - v + 0.002)) :
    refineStep (mkPrecomputed a1 0 i node peri) (mkPrecomputed a2 0 i node peri) false
      ⟨u, v, 0.001, false⟩ = ⟨u - 0.001, v - 0.001, 0.001, false⟩ := by
  set o1 := mkPrecomputed a1 0 i node peri with ho1
  set o2 := mkPrecomputed a2 0 i node peri with ho2
  have hvwon := distAt_circ_wrap a1 a2 i node peri u v (-0.001) (-0.001) (u - v) (by ring)
  have hvc2 := distAt_circ_wrap a1 a2 i node peri u v (-0.001) 0 (u - v - 0.001) (by ring)
  have hvc3 := distAt_circ_wrap a1 a2 i node peri u v (-0.001) 0.001 (u - v - 0.002) (by ring)
  have hvc4 := distAt_circ_wrap a1 a2 i node peri u v 0 (-0.001) (u - v + 0.001) (by ring)
  have hvc5 := distAt_circ_wrap a1 a2 i node peri u v 0 0.001 (u - v - 0.001) (by ring)
  have hvc6 := distAt_circ_wrap a1 a2 i node peri u v 0.001 (-0.001) (u - v + 0.002) (by ring)
  have hvc7 := distAt_circ_wrap a1 a2 i node peri u v 0.001 0 (u - v + 0.001) (by ring)
  have hvc8 := distAt_circ_wrap a1 a2 i node peri u v 0.001 0.001 (u - v) (by ring)
  have hcur : distAt o1 o2 u v =
      Real.sqrt (a1 ^ 2 + a2 ^ 2 - 2 * a1 * a2 * Real.cos (u - v)) := by
    rw [ho1, ho2, distAt_circ]
  have hres := refineStep_eval_max o1 o2 ⟨u, v, 0.001, false⟩ rfl
    (wrap (u + -0.001), wrap (v + -0.001)) []
    [(wrap (u + -0.001), wrap (v + 0)), (wrap (u + -0.001), wrap (v + 0.001)),
     (wrap (u + 0), wrap (v + -0.001)), (wrap (u + 0), wrap (v + 0.001)),
     (wrap (u + 0.001), wrap (v + -0.001)), (wrap (u + 0.001), wrap (v + 0)),
     (wrap (u + 0.001), wrap (v + 0.001))]
    (by
      simp only [offsets, List.map_cons, List.map_nil, List.cons_append, List.nil_append])
    (by
      show distAt o1 o2 (wrap (u + -0.001)) (wrap (v + -0.001)) > -(distAt o1 o2 u v)
      rw [hvwon, hcur]
      have hp := sqrtD_pos a1 a2 ha1 ha2 hne (u - v)
      linarith)
    (by
      intro y hy
      exact absurd hy (List.not_mem_nil y))
    (by
      intro y hy
      simp only [List.mem_cons, List.not_mem_nil, or_false] at hy
      rcases hy with h | h | h | h | h | h | h <;> subst h <;>
        simp only [gt_iff_lt, not_lt]
      · rw [hvwon, hvc2]
        exact sqrtD_le a1 a2 ha1 ha2 h1
      · rw [hvwon, hvc3]
        exact sqrtD_le a1 a2 ha1 ha2 h2
      · rw [hvwon, hvc4]
        exact sqrtD_le a1 a2 ha1 ha2 h3
      · rw [hvwon, hvc5]
        exact sqrtD_le a1 a2 ha1 ha2 h1
      · rw [hvwon, hvc6]
        exact sqrtD_le a1 a2 ha1 ha2 h4
      · rw [hvwon, hvc7]
        exact sqrtD_le a1 a2 ha1 ha2 h3
      · rw [hvwon, hvc8])
    (by
      show (wrap (u + -0.001), wrap (v + -0.001)) ≠ ((⟨u, v, 0.001, false⟩ : RState).t1,
        (⟨u, v, 0.001, false⟩ : RState).t2)
      rw [hwu, hwv]
      exact hne2)
  rw [hres, hwu, hwv]

theorem psi_lb : (0.00629 : ℝ) < π / 499 := by
  linarith [Real.pi_gt_3141592]

theorem psi_ub : π / 499 < (0.0063 : ℝ) := by
  linarith [Real.pi_lt_3141593]

/-- The coarse argmax row angle: `2π·249/499 = π − π/499`. -/
theorem cos_phi_id (x : ℝ) : Real.cos (2 * π * 249 / 499 + x) = -Real.cos (π / 499 - x) := by
  rw [show 2 * π * 249 / 499 + x = π - (π / 499 - x) by ring, Real.cos_pi_sub]

theorem cos_off_lt (s t : ℝ) (h0 : 0 ≤ s) (h1 : t ≤ π) (h2 : s < t) :
    -Real.cos s < -Real.cos t := by
  have h := Real.cos_lt_cos_of_nonneg_of_le_pi h0 h1 h2
  linarith

theorem cos_off_le (s t : ℝ) (h0 : 0 ≤ s) (h1 : t ≤ π) (h2 : s ≤ t) :
    -Real.cos s ≤ -Real.cos t := by
  have h := Real.cos_le_cos_of_nonneg_of_le_pi h0 h1 h2
  linarith

theorem c8_step1 (a1 a2 i node peri : ℝ) (ha1 : 0 < a1) (ha2 : 0 < a2) (hne : a1 ≠ a2) :
    refineStep (mkPrecomputed a1 0 i node peri) (mkPrecomputed a2 0 i node peri) false
      ⟨0, 2 * π * 249 / 499, 0.001, false⟩ =
    ⟨2 * π - 0.001, 2 * π * 249 / 499 + 0.001, 0.001, false⟩ := by
  have hpl := psi_lb
  have hpu := psi_ub
  have hp3 := Real.pi_gt_three
  apply refineStep_maxA a1 a2 i node peri ha1 ha2 hne 0 (2 * π * 249 / 499) (2 * π - 0.001)
  · exact wrap_seed_neg
  · apply wrap_eq_self
    · linarith
    · linarith
  · intro h
    have h1 := congrArg Prod.fst h
    simp only at h1
    linarith
  · rw [show (0 : ℝ) - 2 * π * 249 / 499 - 0.002 = -(2 * π * 249 / 499 + 0.002) by ring,
      Real.cos_neg, cos_phi_id,
      show (0 : ℝ) - 2 * π * 249 / 499 - 0.001 = -(2 * π * 249 / 499 + 0.001) by ring,
      Real.cos_neg, cos_phi_id]
    exact cos_off_lt _ _ (by linarith) (by linarith) (by linarith)
  · rw [show (0 : ℝ) - 2 * π * 249 / 499 - 0.002 = -(2 * π * 249 / 499 + 0.002) by ring,
      Real.cos_neg, cos_phi_id,
      show (0 : ℝ) - 2 * π * 249 / 499 = -(2 * π * 249 / 499 + 0) by ring,
      Real.cos_neg, cos_phi_id]
    exact cos_off_lt _ _ (by linarith) (by linarith) (by linarith)
  · rw [show (0 : ℝ) - 2 * π * 249 / 499 - 0.002 = -(2 * π * 249 / 499 + 0.002) by ring,
      Real.cos_neg, cos_phi_id,
      show (0 : ℝ) - 2 * π * 249 / 499 + 0.001 = -(2 * π * 249 / 499 + -0.001) by ring,
      Real.cos_neg, cos_phi_id]
    exact cos_off_le _ _ (by linarith) (by linarith) (by linarith)
  · rw [show (0 : ℝ) - 2 * π * 249 / 499 - 0.002 = -(2 * π * 249 / 499 + 0.002) by ring,
      Real.cos_neg, cos_phi_id,
      show (0 : ℝ) - 2 * π * 249 / 499 + 0.002 = -(2 * π * 249 / 499 + -0.002) by ring,
      Real.cos_neg, cos_phi_id]
    exact cos_off_le _ _ (by linarith) (by linarith) (by linarith)

theorem c8_step2 (a1 a2 i node peri : ℝ) (ha1 : 0 < a1) (ha2 : 0 < a2) (hne : a1 ≠ a2) :
    refineStep (mkPrecomputed a1 0 i node peri) (mkPrecomputed a2 0 i node peri) false
      ⟨2 * π - 0.001, 2 * π * 249 / 499 + 0.001, 0.001, false⟩ =
    ⟨2 * π - 0.002, 2 * π * 249 / 499 + 0.002, 0.001, false⟩ := by
  have hpl := psi_lb
  have hpu := psi_ub
  have hp3 := Real.pi_gt_three
  have h := refineStep_maxA a1 a2 i node peri ha1 ha2 hne (2 * π - 0.001)
    (2 * π * 249 / 499 + 0.001) (2 * π - 0.002)
    (by
      rw [wrap_eq_self ((2 * π - 0.001) + -0.001) (by linarith) (by linarith)]
      ring)
    (by
      apply wrap_eq_self
      · linarith
      · linarith)
    (by
      intro h
      have h1 := congrArg Prod.fst h
      simp only at h1
      linarith)
    (by
      rw [show (2 * π - 0.001) - (2 * π * 249 / 499 + 0.001) - 0.002 =
          2 * π - (2 * π * 249 / 499 + 0.004) by ring, Real.cos_two_pi_sub, cos_phi_id,
        show (2 * π - 0.001) - (2 * π * 249 / 499 + 0.001) - 0.001 =
          2 * π - (2 * π * 249 / 499 + 0.003) by ring, Real.cos_two_pi_sub, cos_phi_id]
      exact cos_off_lt _ _ (by linarith) (by linarith) (by linarith))
    (by
      rw [show (2 * π - 0.001) - (2 * π * 249 / 499 + 0.001) - 0.002 =
          2 * π - (2 * π * 249 / 499 + 0.004) by ring, Real.cos_two_pi_sub, cos_phi_id,
        show (2 * π - 0.001) - (2 * π * 249 / 499 + 0.001) =
          2 * π - (2 * π * 249 / 499 + 0.002) by ring, Real.cos_two_pi_sub, cos_phi_id]
      exact cos_off_lt _ _ (by linarith) (by linarith) (by linarith))
    (by
      rw [show (2 * π - 0.001) - (2 * π * 249 / 499 + 0.001) - 0.002 =
          2 * π - (2 * π * 249 / 499 + 0.004) by ring, Real.cos_two_pi_sub, cos_phi_id,
        show (2 * π - 0.001) - (2 * π * 249 / 499 + 0.001) + 0.001 =
          2 * π - (2 * π * 249 / 499 + 0.001) by ring, Real.cos_two_pi_sub, cos_phi_id]
      exact cos_off_le _ _ (by linarith) (by linarith) (by linarith))
    (by
      rw [show (2 * π - 0.001) - (2 * π * 249 / 499 + 0.001) - 0.002 =
          2 * π - (2 * π * 249 / 499 + 0.004) by ring, Real.cos_two_pi_sub, cos_phi_id,
        show (2 * π - 0.001) - (2 * π * 249 / 499 + 0.001) + 0.002 =
          2 * π - (2 * π * 249 / 499 + 0) by ring, Real.cos_two_pi_sub, cos_phi_id]
      exact cos_off_le _ _ (by linarith) (by linarith) (by linarith))
  rw [show (2 * π * 249 / 499 + 0.001) + 0.001 = 2 * π * 249 / 499 + 0.002 by ring] at h
  exact h

theorem c8_step3 (a1 a2 i node peri : ℝ) (ha1 : 0 < a1) (ha2 : 0 < a2) (hne : a1 ≠ a2) :
    refineStep (mkPrecomputed a1 0 i node peri) (mkPrecomputed a2 0 i node peri) false
      ⟨2 * π - 0.002, 2 * π * 249 / 499 + 0.002, 0.001, false⟩ =
    ⟨2 * π - 0.003, 2 * π * 249 / 499 + 0.003, 0.001, false⟩ := by
  have hpl := psi_lb
  have hpu := psi_ub
  have hp3 := Real.pi_gt_three
  have h := refineStep_maxA a1 a2 i node peri ha1 ha2 hne (2 * π - 0.002)
    (2 * π * 249 / 499 + 0.002) (2 * π - 0.003)
    (by
      rw [wrap_eq_self ((2 * π - 0.002) + -0.001) (by linarith) (by linarith)]
      ring)
    (by
      apply wrap_eq_self
      · linarith
      · linarith)
    (by
      intro h
      have h1 := congrArg Prod.fst h
      simp only at h1
      linarith)
    (by
      rw [show (2 * π - 0.002) - (2 * π * 249 / 499 + 0.002) - 0.002 =
          2 * π - (2 * π * 249 / 499 + 0.006) by ring, Real.cos_two_pi_sub, cos_phi_id,
        show (2 * π - 0.002) - (2 * π * 249 / 499 + 0.002) - 0.001 =
          2 * π - (2 * π * 249 / 499 + 0.005) by ring, Real.cos_two_pi_sub, cos_phi_id]
      exact cos_off_lt _ _ (by linarith) (by linarith) (by linarith))
    (by
      rw [show (2 * π - 0.002) - (2 * π * 249 / 499 + 0.002) - 0.002 =
          2 * π - (2 * π * 249 / 499 + 0.006) by ring, Real.cos_two_pi_sub, cos_phi_id,
        show (2 * π - 0.002) - (2 * π * 249 / 499 + 0.002) =
          2 * π - (2 * π * 249 / 499 + 0.004) by ring, Real.cos_two_pi_sub, cos_phi_id]
      exact cos_off_lt _ _ (by linarith) (by linarith) (by linarith))
    (by
      rw [show (2 * π - 0.002) - (2 * π * 249 / 499 + 0.002) - 0.002 =
          2 * π - (2 * π * 249 / 499 + 0.006) by ring, Real.cos_two_pi_sub, cos_phi_id,
        show (2 * π - 0.002) - (2 * π * 249 / 499 + 0.002) + 0.001 =
          2 * π - (2 * π * 249 / 499 + 0.003) by ring, Real.cos_two_pi_sub, cos_phi_id]
      exact cos_off_le _ _ (by linarith) (by linarith) (by linarith))
    (by
      rw [show (2 * π - 0.002) - (2 * π * 249 / 499 + 0.002) - 0.002 =
          2 * π - (2 * π * 249 / 499 + 0.006) by ring, Real.cos_two_pi_sub, cos_phi_id,
        show (2 * π - 0.002) - (2 * π * 249 / 499 + 0.002) + 0.002 =
          2 * π - (2 * π * 249 / 499 + 0.002) by ring, Real.cos_two_pi_sub, cos_phi_id]
      exact cos_off_le _ _ (by linarith) (by linarith) (by linarith))
  rw [show (2 * π * 249 / 499 + 0.002) + 0.001 = 2 * π * 249 / 499 + 0.003 by ring] at h
  exact h

theorem c8_step4 (a1 a2 i node peri : ℝ) (ha1 : 0 < a1) (ha2 : 0 < a2) (hne : a1 ≠ a2) :
    refineStep (mkPrecomputed a1 0 i node peri) (mkPrecomputed a2 0 i node peri) false
      ⟨2 * π - 0.003, 2 * π * 249 / 499 + 0.003, 0.001, false⟩ =
    ⟨2 * π - 0.004, 2 * π * 249 / 499 + 0.002, 0.001, false⟩ := by
  have hpl := psi_lb
  have hpu := psi_ub
  have hp3 := Real.pi_gt_three
  have h := refineStep_maxB a1 a2 i node peri ha1 ha2 hne (2 * π - 0.003)
    (2 * π * 249 / 499 + 0.003)
    (by
      rw [wrap_eq_self ((2 * π - 0.003) + -0.001) (by linarith) (by linarith)]
      ring)
    (by
      rw [wrap_eq_self ((2 * π * 249 / 499 + 0.003) + -0.001) (by linarith) (by linarith)]
      ring)
    (by
      intro h
      have h1 := congrArg Prod.fst h
      simp only at h1
      linarith)
    (by
      rw [show (2 * π - 0.003) - (2 * π * 249 / 499 + 0.003) =
          2 * π - (2 * π * 249 / 499 + 0.006) by ring, Real.cos_two_pi_sub, cos_phi_id,
        show 2 * π - (2 * π * 249 / 499 + 0.006) - 0.001 =
          2 * π - (2 * π * 249 / 499 + 0.007) by ring, Real.cos_two_pi_sub, cos_phi_id,
        show π / 499 - 0.007 = -(0.007 - π / 499) by ring, Real.cos_neg]
      exact cos_off_le _ _ (by linarith) (by linarith) (by linarith))
    (by
      rw [show (2 * π - 0.003) - (2 * π * 249 / 499 + 0.003) =
          2 * π - (2 * π * 249 / 499 + 0.006) by ring, Real.cos_two_pi_sub, cos_phi_id,
        show 2 * π - (2 * π * 249 / 499 + 0.006) - 0.002 =
          2 * π - (2 * π * 249 / 499 + 0.008) by ring, Real.cos_two_pi_sub, cos_phi_id,
        show π / 499 - 0.008 = -(0.008 - π / 499) by ring, Real.cos_neg]
      exact cos_off_le _ _ (by linarith) (by linarith) (by linarith))
    (by
      rw [show (2 * π - 0.003) - (2 * π * 249 / 499 + 0.003) =
          2 * π - (2 * π * 249 / 499 + 0.006) by ring, Real.cos_two_pi_sub, cos_phi_id,
        show 2 * π - (2 * π * 249 / 499 + 0.006) + 0.001 =
          2 * π - (2 * π * 249 / 499 + 0.005) by ring, Real.cos_two_pi_sub, cos_phi_id]
      exact cos_off_le _ _ (by linarith) (by linarith) (by linarith))
    (by
      rw [show (2 * π - 0.003) - (2 * π * 249 / 499 + 0.003) =
          2 * π - (2 * π * 249 / 499 + 0.006) by ring, Real.cos_two_pi_sub, cos_phi_id,
        show 2 * π - (2 * π * 249 / 499 + 0.006) + 0.002 =
          2 * π - (2 * π * 249 / 499 + 0.004) by ring, Real.cos_two_pi_sub, cos_phi_id]
      exact cos_off_le _ _ (by linarith) (by linarith) (by linarith))
  rw [show (2 * π - 0.003) - 0.001 = 2 * π - 0.004 by ring,
    show (2 * π * 249 / 499 + 0.003) - 0.001 = 2 * π * 249 / 499 + 0.002 by ring] at h
  exact h

theorem c8_step5 (a1 a2 i node peri : ℝ) (ha1 : 0 < a1) (ha2 : 0 < a2) (hne : a1 ≠ a2) :
    refineStep (mkPrecomputed a1 0 i node peri) (mkPrecomputed a2 0 i node peri) false
      ⟨2 * π - 0.004, 2 * π * 249 / 499 + 0.002, 0.001, false⟩ =
    ⟨2 * π - 0.005, 2 * π * 249 / 499 + 0.001, 0.001, false⟩ := by
  have hpl := psi_lb
  have hpu := psi_ub
  have hp3 := Real.pi_gt_three
  have h := refineStep_maxB a1 a2 i node peri ha1 ha2 hne (2 * π - 0.004)
    (2 * π * 249 / 499 + 0.002)
    (by
      rw [wrap_eq_self ((2 * π - 0.004) + -0.001) (by linarith) (by linarith)]
      ring)
    (by
      rw [wrap_eq_self ((2 * π * 249 / 499 + 0.002) + -0.001) (by linarith) (by linarith)]
      ring)
    (by
      intro h
      have h1 := congrArg Prod.fst h
      simp only at h1
      linarith)
    (by
      rw [show (2 * π - 0.004) - (2 * π * 249 / 499 + 0.002) =
          2 * π - (2 * π * 249 / 499 + 0.006) by ring, Real.cos_two_pi_sub, cos_phi_id,
        show 2 * π - (2 * π * 249 / 499 + 0.006) - 0.001 =
          2 * π - (2 * π * 249 / 499 + 0.007) by ring, Real.cos_two_pi_sub, cos_phi_id,
        show π / 499 - 0.007 = -(0.007 - π / 499) by ring, Real.cos_neg]
      exact cos_off_le _ _ (by linarith) (by linarith) (by linarith))
    (by
      rw [show (2 * π - 0.004) - (2 * π * 249 / 499 + 0.002) =
          2 * π - (2 * π * 249 / 499 + 0.006) by ring, Real.cos_two_pi_sub, cos_phi_id,
        show 2 * π - (2 * π * 249 / 499 + 0.006) - 0.002 =
          2 * π - (2 * π * 249 / 499 + 0.008) by ring, Real.cos_two_pi_sub, cos_phi_id,
        show π / 499 - 0.008 = -(0.008 - π / 499) by ring, Real.cos_neg]
      exact cos_off_le _ _ (by linarith) (by linarith) (by linarith))
    (by
      rw [show (2 * π - 0.004) - (2 * π * 249 / 499 + 0.002) =
          2 * π - (2 * π * 249 / 499 + 0.006) by ring, Real.cos_two_pi_sub, cos_phi_id,
        show 2 * π - (2 * π * 249 / 499 + 0.006) + 0.001 =
          2 * π - (2 * π * 249 / 499 + 0.005) by ring, Real.cos_two_pi_sub, cos_phi_id]
      exact cos_off_le _ _ (by linarith) (by linarith) (by linarith))
    (by
      rw [show (2 * π - 0.004) - (2 * π * 249 / 499 + 0.002) =
          2 * π - (2 * π * 249 / 499 + 0.006) by ring, Real.cos_two_pi_sub, cos_phi_id,
        show 2 * π - (2 * π * 249 / 499 + 0.006) + 0.002 =
          2 * π - (2 * π * 249 / 499 + 0.004) by ring, Real.cos_two_pi_sub, cos_phi_id]
      exact cos_off_le _ _ (by linarith) (by linarith) (by linarith))
  rw [show (2 * π - 0.004) - 0.001 = 2 * π - 0.005 by ring,
    show (2 * π * 249 / 499 + 0.002) - 0.001 = 2 * π * 249 / 499 + 0.001 by ring] at h
  exact h

theorem c8_min_step (a1 a2 i node peri : ℝ) (ha1 : 0 < a1) (ha2 : 0 < a2) (s : ℝ) :
    refineStep (mkPrecomputed a1 0 i node peri) (mkPrecomputed a2 0 i node peri) true
      ⟨0, 0, s, false⟩ = ⟨0, 0, s / 2, decide (s / 2 < 1e-6)⟩ := by
  have h := refineStep_eval_halve (mkPrecomputed a1 0 i node peri)
    (mkPrecomputed a2 0 i node peri) ⟨0, 0, s, false⟩ rfl ?_
  · exact h
  · intro p hp
    show ¬ distAt _ _ (wrap (0 + p.1)) (wrap (0 + p.2)) < distAt _ _ 0 0
    rw [distAt_circ_wrap a1 a2 i node peri 0 0 p.1 p.2 (p.1 - p.2) (by ring), distAt_circ,
      show (0 : ℝ) - 0 = 0 by norm_num]
    apply not_lt.mpr
    apply sqrtD_le a1 a2 ha1 ha2
    rw [Real.cos_zero]
    exact Real.cos_le_one _

theorem c8_refine_min (a1 a2 i node peri : ℝ) (ha1 : 0 < a1) (ha2 : 0 < a2) :
    refine_extremum (mkPrecomputed a1 0 i node peri) (mkPrecomputed a2 0 i node peri)
      0 0 true 5 0.001 = (0, 0) := by
  have e1 := c8_min_step a1 a2 i node peri ha1 ha2 0.001
  rw [decide_eq_false (by norm_num : ¬ ((0.001 : ℝ) / 2 < 1e-6))] at e1
  have e2 := c8_min_step a1 a2 i node peri ha1 ha2 (0.001 / 2)
  rw [decide_eq_false (by norm_num : ¬ ((0.001 : ℝ) / 2 / 2 < 1e-6))] at e2
  have e3 := c8_min_step a1 a2 i node peri ha1 ha2 (0.001 / 2 / 2)
  rw [decide_eq_false (by norm_num : ¬ ((0.001 : ℝ) / 2 / 2 / 2 < 1e-6))] at e3
  have e4 := c8_min_step a1 a2 i node peri ha1 ha2 (0.001 / 2 / 2 / 2)
  rw [decide_eq_false (by norm_num : ¬ ((0.001 : ℝ) / 2 / 2 / 2 / 2 < 1e-6))] at e4
  have e5 := c8_min_step a1 a2 i node peri ha1 ha2 (0.001 / 2 / 2 / 2 / 2)
  rw [decide_eq_false (by norm_num : ¬ ((0.001 : ℝ) / 2 / 2 / 2 / 2 / 2 < 1e-6))] at e5
  unfold refine_extremum
  simp only [refineLoop]
  rw [e1, e2, e3, e4, e5]

theorem c8_refine_max (a1 a2 i node peri : ℝ) (ha1 : 0 < a1) (ha2 : 0 < a2) (hne : a1 ≠ a2) :
    refine_extremum (mkPrecomputed a1 0 i node peri) (mkPrecomputed a2 0 i node peri)
      0 (2 * π * 249 / 499) false 5 0.001 =
    (2 * π - 0.005, 2 * π * 249 / 499 + 0.001) := by
  unfold refine_extremum
  simp only [refineLoop]
  rw [c8_step1 a1 a2 i node peri ha1 ha2 hne, c8_step2 a1 a2 i node peri ha1 ha2 hne,
    c8_step3 a1 a2 i node peri ha1 ha2 hne, c8_step4 a1 a2 i node peri ha1 ha2 hne,
    c8_step5 a1 a2 i node peri ha1 ha2 hne]

set_option maxRecDepth 16000 in
theorem c8_general (a1 a2 i node peri : ℝ) (ha1 : 0 < a1) (ha2 : 0 < a2) (hne : a1 ≠ a2) :
    (find_min_max_distance_points (mkPrecomputed a1 0 i node peri)
        (mkPrecomputed a2 0 i node peri)).min_distance = |a1 - a2| ∧
    (find_min_max_distance_points (mkPrecomputed a1 0 i node peri)
        (mkPrecomputed a2 0 i node peri)).max_distance =
      Real.sqrt (a1 ^ 2 + a2 ^ 2 + 2 * a1 * a2 * Real.cos (π / 499 - 0.006)) := by
  have hgv : ∀ (m k : ℕ), m < 500 → k < 500 →
      dist3 ((get_orbital_points (mkPrecomputed a1 0 i node peri) 500).getD m ⟨0, 0, 0⟩)
        ((get_orbital_points (mkPrecomputed a2 0 i node peri) 500).getD k ⟨0, 0, 0⟩) =
      Real.sqrt (a1 ^ 2 + a2 ^ 2 -
        2 * a1 * a2 * Real.cos (2 * π * m / 499 - 2 * π * k / 499)) := by
    intro m k hm hk
    rw [get_orbital_points_getD _ 500 m hm, get_orbital_points_getD _ 500 k hk, dist_circ,
      linspace_500, linspace_500]
  have hd00 : dist3 ((get_orbital_points (mkPrecomputed a1 0 i node peri) 500).getD 0 ⟨0, 0, 0⟩)
      ((get_orbital_points (mkPrecomputed a2 0 i node peri) 500).getD 0 ⟨0, 0, 0⟩) =
      Real.sqrt (a1 ^ 2 + a2 ^ 2 - 2 * a1 * a2 * Real.cos 0) := by
    rw [hgv 0 0 (by norm_num) (by norm_num),
      show 2 * π * ((0 : ℕ) : ℝ) / 499 - 2 * π * ((0 : ℕ) : ℝ) / 499 = 0 by norm_num]
  have hrow249 : ∀ j : ℕ, j < 500 →
      dist3 ((get_orbital_points (mkPrecomputed a1 0 i node peri) 500).getD 0 ⟨0, 0, 0⟩)
        ((get_orbital_points (mkPrecomputed a2 0 i node peri) 500).getD j ⟨0, 0, 0⟩) =
      Real.sqrt (a1 ^ 2 + a2 ^ 2 - 2 * a1 * a2 * Real.cos (2 * π * j / 499)) := by
    intro j hj
    rw [hgv 0 j (by norm_num) hj,
      show 2 * π * ((0 : ℕ) : ℝ) / 499 - 2 * π * (j : ℝ) / 499 = -(2 * π * j / 499) by
        push_cast
        ring,
      Real.cos_neg]
  have hmin := coarse_min_keep
    (fun p : ℕ × ℕ =>
      dist3 ((get_orbital_points (mkPrecomputed a1 0 i node peri) 500).getD p.1 ⟨0, 0, 0⟩)
        ((get_orbital_points (mkPrecomputed a2 0 i node peri) 500).getD p.2 ⟨0, 0, 0⟩))
    (dist3 ((get_orbital_points (mkPrecomputed a1 0 i node peri) 500).getD 0 ⟨0, 0, 0⟩)
      ((get_orbital_points (mkPrecomputed a2 0 i node peri) 500).getD 0 ⟨0, 0, 0⟩))
    (by
      intro p hp
      obtain ⟨h1, h2⟩ := pairsList_mem 500 p hp
      simp only
      rw [hgv p.1 p.2 h1 h2, hd00]
      apply not_lt.mpr
      apply sqrtD_le a1 a2 ha1 ha2
      rw [Real.cos_zero]
      exact Real.cos_le_one _)
  have hcos249lt : Real.cos (2 * π * 249 / 499) < Real.cos 0 := by
    have h := cos_row_strict 0 (by norm_num)
    rw [show 2 * π * ((0 : ℕ) : ℝ) / 499 = 0 by norm_num] at h
    exact h
  have hmax := coarse_max_firstwin
    (fun p : ℕ × ℕ =>
      dist3 ((get_orbital_points (mkPrecomputed a1 0 i node peri) 500).getD p.1 ⟨0, 0, 0⟩)
        ((get_orbital_points (mkPrecomputed a2 0 i node peri) 500).getD p.2 ⟨0, 0, 0⟩))
    (dist3 ((get_orbital_points (mkPrecomputed a1 0 i node peri) 500).getD 0 ⟨0, 0, 0⟩)
      ((get_orbital_points (mkPrecomputed a2 0 i node peri) 500).getD 0 ⟨0, 0, 0⟩))
    (by
      simp only
      rw [hrow249 249 (by norm_num), hd00,
        show 2 * π * ((249 : ℕ) : ℝ) / 499 = 2 * π * 249 / 499 by norm_num]
      exact sqrtD_lt a1 a2 ha1 ha2 hcos249lt)
    (by
      intro j hj
      simp only
      rw [hrow249 j (by omega), hrow249 249 (by norm_num),
        show 2 * π * ((249 : ℕ) : ℝ) / 499 = 2 * π * 249 / 499 by norm_num]
      exact sqrtD_lt a1 a2 ha1 ha2 (cos_row_strict j hj))
    (by
      intro p h1 h2
      simp only
      rw [hgv p.1 p.2 h1 h2, hrow249 249 (by norm_num),
        show 2 * π * ((249 : ℕ) : ℝ) / 499 = 2 * π * 249 / 499 by norm_num]
      exact sqrtD_le a1 a2 ha1 ha2 (cos_grid p.1 p.2 h1 h2))
  have hlin249 : linspace 500 ((249 : ℕ)) = 2 * π * 249 / 499 := by
    rw [linspace_500]
    norm_num
  simp only [find_min_max_distance_points, NUM_POINTS]
  rw [hmin, hmax]
  dsimp only
  rw [linspace_500_zero, hlin249, c8_refine_min a1 a2 i node peri ha1 ha2,
    c8_refine_max a1 a2 i node peri ha1 ha2 hne]
  dsimp only
  constructor
  · rw [dist_circ, show (0 : ℝ) - 0 = 0 by norm_num, Real.cos_zero,
      show a1 ^ 2 + a2 ^ 2 - 2 * a1 * a2 * 1 = (a1 - a2) ^ 2 by ring, Real.sqrt_sq_eq_abs]
  · rw [dist_circ,
      show (2 * π - 0.005) - (2 * π * 249 / 499 + 0.001) =
        2 * π - (2 * π * 249 / 499 + 0.006) by ring,
      Real.cos_two_pi_sub, cos_phi_id,
      show a1 ^ 2 + a2 ^ 2 - 2 * a1 * a2 * -Real.cos (π / 499 - 0.006) =
        a1 ^ 2 + a2 ^ 2 + 2 * a1 * a2 * Real.cos (π / 499 - 0.006) by ring]

theorem c8_max_lt (a1 a2 : ℝ) (ha1 : 0 < a1) (ha2 : 0 < a2) :
    Real.sqrt (a1 ^ 2 + a2 ^ 2 + 2 * a1 * a2 * Real.cos (π / 499 - 0.006)) < a1 + a2 := by
  have hpl := psi_lb
  have hpu := psi_ub
  have hp3 := Real.pi_gt_three
  have hcos : Real.cos (π / 499 - 0.006) < 1 := by
    have h := Real.cos_lt_cos_of_nonneg_of_le_pi (le_refl 0) (by linarith)
      (by linarith : (0 : ℝ) < π / 499 - 0.006)
    rwa [Real.cos_zero] at h
  have hlo := mul_le_mul_of_nonneg_left (Real.neg_one_le_cos (π / 499 - 0.006))
    (mul_pos ha1 ha2).le
  have hhi := mul_lt_mul_of_pos_left hcos (mul_pos ha1 ha2)
  have h4 : Real.sqrt (a1 ^ 2 + a2 ^ 2 + 2 * a1 * a2 * Real.cos (π / 499 - 0.006)) <
      Real.sqrt ((a1 + a2) ^ 2) :=
    Real.sqrt_lt_sqrt (by nlinarith [sq_nonneg (a1 - a2)]) (by nlinarith)
  rwa [Real.sqrt_sq (by linarith)] at h4

/-- Counterexample to C8 as stated: for the concentric circular orbits with
radii a1 = 1 and a2 = 2 (e1 = e2 = 0, i = Ω = ω = 0) the solver does not
return max_distance = a1 + a2 = 3.  The coarse grid (500 linspace points,
spacing 2π/499) never contains an exactly antipodal pair, and the
0.001-step refinement cannot close the residual π/499 − 0.006 offset, so
the returned maximum √(5 + 4·cos(π/499 − 0.006)) falls strictly short
of 3.  (The min_distance half of the claim does hold exactly.) -/
theorem c8_max_not_sum_counterexample :
    (find_min_max_distance_points (mkPrecomputed 1 0 0 0 0)
      (mkPrecomputed 2 0 0 0 0)).max_distance ≠ 1 + 2 := by
  obtain ⟨h1, h2⟩ := c8_general 1 2 0 0 0 (by norm_num) (by norm_num) (by norm_num)
  rw [h2]
  have h := c8_max_lt 1 2 (by norm_num) (by norm_num)
  intro heq
  rw [heq] at h
  norm_num at h

/-- C8 amended: for every pair of concentric circular orbits (e1 = e2 = 0,
identical i, Ω, ω) with distinct positive radii a1 ≠ a2, the solver returns
min_distance = |a1 − a2| exactly, and max_distance =
√(a1² + a2² + 2·a1·a2·cos(π/499 − 0.006)), which is strictly less than
a1 + a2 (within about 4·10⁻⁸ relative error).  Both results are independent
of ω (and of i and Ω): the returned expressions do not mention them. -/
theorem c8_coplanar_circular_amended (a1 a2 i Ω ω : ℝ)
    (ha1 : 0 < a1) (ha2 : 0 < a2) (hne : a1 ≠ a2) :
    (find_min_max_distance_points (mkPrecomputed a1 0 i Ω ω)
        (mkPrecomputed a2 0 i Ω ω)).min_distance = |a1 - a2| ∧
    (find_min_max_distance_points (mkPrecomputed a1 0 i Ω ω)
        (mkPrecomputed a2 0 i Ω ω)).max_distance =
      Real.sqrt (a1 ^ 2 + a2 ^ 2 + 2 * a1 * a2 * Real.cos (π / 499 - 0.006)) ∧
    (find_min_max_distance_points (mkPrecomputed a1 0 i Ω ω)
        (mkPrecomputed a2 0 i Ω ω)).max_distance < a1 + a2 := by
  obtain ⟨h1, h2⟩ := c8_general a1 a2 i Ω ω ha1 ha2 hne
  refine ⟨h1, h2, ?_⟩
  rw [h2]
  exact c8_max_lt a1 a2 ha1 ha2

/-- Witness for the amended C8 at radii 1 and 2 with i = Ω = ω = 0. -/
theorem c8_coplanar_circular_amended_witness :
    (0 : ℝ) < 1 ∧ (0 : ℝ) < 2 ∧ (1 : ℝ) ≠ 2 ∧
    ((find_min_max_distance_points (mkPrecomputed 1 0 0 0 0)
        (mkPrecomputed 2 0 0 0 0)).min_distance = |(1 : ℝ) - 2| ∧
      (find_min_max_distance_points (mkPrecomputed 1 0 0 0 0)
        (mkPrecomputed 2 0 0 0 0)).max_distance =
        Real.sqrt ((1 : ℝ) ^ 2 + 2 ^ 2 + 2 * 1 * 2 * Real.cos (π / 499 - 0.006)) ∧
      (find_min_max_distance_points (mkPrecomputed 1 0 0 0 0)
        (mkPrecomputed 2 0 0 0 0)).max_distance < 1 + 2) :=
  ⟨by norm_num, by norm_num, by norm_num,
    c8_coplanar_circular_amended 1 2 0 0 0 (by norm_num) (by norm_num) (by norm_num)⟩
